import Mathlib

/-!
Verification development for the writeapp terminal writing application
(src/src/app.rs, src/src/storage.rs).  The application state machine,
the modal editor, the selection workflow and the soft-wrap engine are
embedded as pure Lean functions over explicit state; the storage layer
(files on disk) is embedded as an in-memory record whose operations
always succeed, matching the spec scoping that persistence errors are
non-fatal and simply leave the operation without effect.  Text is
modelled at the character level; the spec (section 1) scopes the
system to ASCII column counting, where Rust byte indices and character
indices coincide.
-/

namespace WriteApp

/-- Text is a list of characters (the spec scopes the system to ASCII,
where the byte indices used by the Rust code coincide with character
indices). -/
abbrev Txt := List Char

/-- The space character, written numerically. -/
def spaceChar : Char := Char.ofNat 32

/-- The newline character. -/
def nlChar : Char := Char.ofNat 10

/-- The dot character used for file extensions. -/
def dotChar : Char := Char.ofNat 46

/-- Whitespace predicate backing the embedding of Rust str::trim
(space, tab, newline, carriage return). -/
def isWS (c : Char) : Bool :=
  c = spaceChar || c = Char.ofNat 9 || c = nlChar || c = Char.ofNat 13

/-- Embedding of Rust str::trim: drop whitespace from both ends. -/
def trim (t : Txt) : Txt :=
  ((t.dropWhile isWS).reverse.dropWhile isWS).reverse

/-- Join a list of texts with a separator, as Rust slice join does. -/
def joinSep (sep : Txt) : List Txt → Txt
  | [] => []
  | [t] => t
  | t :: ts => t ++ sep ++ joinSep sep ts

/-- Join buffer lines with a newline, as textarea.lines().join of the
source does. -/
def joinNL (ls : List Txt) : Txt := joinSep [nlChar] ls

/-- Split a text at newline characters, keeping every piece. -/
def splitNL : Txt → List Txt
  | [] => [[]]
  | c :: cs =>
    let rest := splitNL cs
    if c = nlChar then [] :: rest
    else match rest with
      | [] => [[c]]
      | p :: ps => (c :: p) :: ps

/-- Embedding of Rust str::lines as used when loading a draft or a
history entry into a buffer: split at newlines, with a trailing empty
piece dropped, and the empty string producing no lines. -/
def rustLines (t : Txt) : List Txt :=
  if t = [] then []
  else
    let ps := splitNL t
    match ps.getLast? with
    | some l => if l = [] then ps.dropLast else ps
    | none => ps

/-- Byte-order comparison on ASCII text, backing the sorting performed
by Storage::list_drafts and the misspelled word list. -/
def lexLE : Txt → Txt → Bool
  | [], _ => true
  | _ :: _, [] => false
  | a :: as_, b :: bs =>
    if a.toNat < b.toNat then true
    else if b.toNat < a.toNat then false
    else lexLE as_ bs

/-- Embedding of Rust str::rfind for the space character: the index of
the last space in the text, if any. -/
def rfindSpace : Txt → Option Nat
  | [] => none
  | c :: cs =>
    match rfindSpace cs with
    | some i => some (i + 1)
    | none => if c = spaceChar then some 0 else none

/-- The hard wrap limit constant of app.rs. -/
def HARD_WRAP_LIMIT : Nat := 90

/-- Modulus of the u16 casts performed when the source jumps the
cursor (`row as u16`, `space_idx as u16`). -/
def U16 : Nat := 65536

/-- Cursor movements of the external tui-textarea crate that app.rs
uses. -/
inductive CursorMove where
  | Back | Forward | Up | Down | WordForward | WordBack
  | Bottom | End
  | Jump (r : Nat) (c : Nat)
deriving DecidableEq

/-- The text buffer.  Modelled from the spec: the Text Buffer leaf
component (spec sections 2 and 3) is realised in the source by the
external tui-textarea crate, whose code is not part of this
repository; it is an editable sequence of lines with a cursor, an
optional selection anchor, and a single-slot yank register. -/
structure Textarea where
  lines : List Txt
  row : Nat
  col : Nat
  sel : Option (Nat × Nat)
  yank : Txt
deriving DecidableEq

namespace Textarea

/-- TextArea::default(): one empty line, cursor at the origin, no
selection, empty yank register. -/
def empty : Textarea :=
  { lines := [[]], row := 0, col := 0, sel := none, yank := [] }

/-- TextArea::new(lines): the crate normalises an empty list of lines
to a single empty line. -/
def mk' (ls : List Txt) : Textarea :=
  { lines := if ls = [] then [[]] else ls
    row := 0, col := 0, sel := none, yank := [] }

/-- The line the cursor is on (empty when the row is out of range,
which the crate never lets happen). -/
def curLine (ta : Textarea) : Txt := ta.lines.getD ta.row []

/-- Length of the line at a given row. -/
def lineLen (ta : Textarea) (r : Nat) : Nat := (ta.lines.getD r []).length

/-- Cursor movement.  Jump clamps the row to the line count and the
column to the target line length, as the crate does; the word motions
are a simple whitespace-word abstraction of the crate behaviour (no
claim depends on them). -/
def moveCursor (ta : Textarea) (m : CursorMove) : Textarea :=
  match m with
  | .Jump r c =>
    let r2 := min r (ta.lines.length - 1)
    { ta with row := r2, col := min c (ta.lineLen r2) }
  | .Back =>
    if ta.col > 0 then { ta with col := ta.col - 1 }
    else if ta.row > 0 then
      { ta with row := ta.row - 1, col := ta.lineLen (ta.row - 1) }
    else ta
  | .Forward =>
    if ta.col < ta.lineLen ta.row then { ta with col := ta.col + 1 }
    else if ta.row + 1 < ta.lines.length then
      { ta with row := ta.row + 1, col := 0 }
    else ta
  | .Up =>
    if ta.row > 0 then
      { ta with row := ta.row - 1, col := min ta.col (ta.lineLen (ta.row - 1)) }
    else ta
  | .Down =>
    if ta.row + 1 < ta.lines.length then
      { ta with row := ta.row + 1, col := min ta.col (ta.lineLen (ta.row + 1)) }
    else ta
  | .WordForward =>
    let rest := (ta.curLine).drop ta.col
    let adv := (rest.takeWhile (fun c => c ≠ spaceChar)).length
    let sp := ((rest.drop adv).takeWhile (fun c => c = spaceChar)).length
    if adv + sp > 0 then { ta with col := ta.col + adv + sp }
    else if ta.row + 1 < ta.lines.length then
      { ta with row := ta.row + 1, col := 0 }
    else ta
  | .WordBack =>
    let front := (ta.curLine).take ta.col
    let sp := (front.reverse.takeWhile (fun c => c = spaceChar)).length
    let adv := ((front.reverse.drop sp).takeWhile (fun c => c ≠ spaceChar)).length
    if sp + adv > 0 then { ta with col := ta.col - sp - adv }
    else if ta.row > 0 then
      { ta with row := ta.row - 1, col := ta.lineLen (ta.row - 1) }
    else ta
  | .Bottom =>
    let r2 := ta.lines.length - 1
    { ta with row := r2, col := min ta.col (ta.lineLen r2) }
  | .End => { ta with col := ta.lineLen ta.row }

/-- delete_next_char of the crate with no active selection: remove the
character under the cursor, or join with the next line when the cursor
sits at the end of a line.  The source only edits the buffer outside
Visual mode, so the selection is never active here (spec section
4.2). -/
def deleteNextChar (ta : Textarea) : Textarea :=
  let line := ta.curLine
  if ta.col < line.length then
    { ta with lines := ta.lines.set ta.row (line.take ta.col ++ line.drop (ta.col + 1)) }
  else if ta.row + 1 < ta.lines.length then
    { ta with
      lines := ((ta.lines.set ta.row (line ++ ta.lines.getD (ta.row + 1) []))).eraseIdx (ta.row + 1) }
  else ta

/-- delete_char (backspace) of the crate with no active selection. -/
def deleteChar (ta : Textarea) : Textarea :=
  let line := ta.curLine
  if ta.col > 0 then
    { ta with
      lines := ta.lines.set ta.row (line.take (ta.col - 1) ++ line.drop ta.col)
      col := ta.col - 1 }
  else if ta.row > 0 then
    let prev := ta.lines.getD (ta.row - 1) []
    { ta with
      lines := ((ta.lines.set (ta.row - 1) (prev ++ line))).eraseIdx ta.row
      row := ta.row - 1, col := prev.length }
  else ta

/-- insert_newline of the crate: split the cursor line at the cursor
column; the cursor moves to the start of the new line. -/
def insertNewline (ta : Textarea) : Textarea :=
  let line := ta.curLine
  { ta with
    lines := ta.lines.take ta.row ++ [line.take ta.col, line.drop ta.col] ++ ta.lines.drop (ta.row + 1)
    row := ta.row + 1, col := 0 }

/-- insert_char of the crate: insert one character at the cursor. -/
def insertChar (ta : Textarea) (c : Char) : Textarea :=
  let line := ta.curLine
  { ta with
    lines := ta.lines.set ta.row (line.take ta.col ++ c :: line.drop ta.col)
    col := ta.col + 1 }

/-- insert_str of the crate, for the newline-separated strings the
source inserts. -/
def insertStr (ta : Textarea) (t : Txt) : Textarea :=
  t.foldl (fun a c => if c = nlChar then a.insertNewline else a.insertChar c) ta

/-- start_selection: place the anchor at the cursor. -/
def startSelection (ta : Textarea) : Textarea :=
  { ta with sel := some (ta.row, ta.col) }

/-- cancel_selection: drop the anchor. -/
def cancelSelection (ta : Textarea) : Textarea := { ta with sel := none }

/-- The text between two buffer positions, end exclusive, used for
selection extraction. -/
def sliceBetween (ta : Textarea) (r1 c1 r2 c2 : Nat) : Txt :=
  if r1 = r2 then ((ta.lines.getD r1 []).drop c1).take (c2 - c1)
  else
    ((ta.lines.getD r1 []).drop c1)
      ++ [nlChar]
      ++ joinNL (((ta.lines.drop (r1 + 1)).take (r2 - r1 - 1)))
      ++ (if r2 - r1 - 1 > 0 then [nlChar] else [])
      ++ ((ta.lines.getD r2 []).take c2)

/-- copy of the crate: store the selected text in the yank register
and consume the selection; with no selection it does nothing. -/
def copy (ta : Textarea) : Textarea :=
  match ta.sel with
  | none => ta
  | some (ar, ac) =>
    let t :=
      if ar < ta.row ∨ (ar = ta.row ∧ ac ≤ ta.col) then
        ta.sliceBetween ar ac ta.row ta.col
      else
        ta.sliceBetween ta.row ta.col ar ac
    { ta with yank := t, sel := none }

/-- yank_text of the crate: the contents of the yank register. -/
def yankText (ta : Textarea) : Txt := ta.yank

/-- undo of the crate.  The crate keeps an edit history that this
development does not model (no claim depends on undo); modelled as the
identity. -/
def undo (ta : Textarea) : Textarea := ta

end Textarea

/-- The key codes the source matches on; every other crossterm key is
collapsed into other, which every handler treats as a fall-through. -/
inductive KeyCode where
  | Esc | Enter | Up | Down | Delete | Backspace
  | Char (c : Char)
  | other
deriving DecidableEq

/-- A key event: code plus the control-modifier flag the source
queries. -/
structure KeyEvent where
  code : KeyCode
  ctrl : Bool
deriving DecidableEq

/-- input of the crate for the key subset this development exercises:
plain characters insert, Enter breaks the line, Backspace and Delete
delete, Up and Down move; control-chorded keys and the remaining
crate bindings are not reached by any claim and fall through. -/
def Textarea.input (ta : Textarea) (k : KeyEvent) : Textarea :=
  if k.ctrl then ta
  else
    match k.code with
    | .Char c => ta.insertChar c
    | .Enter => ta.insertNewline
    | .Backspace => ta.deleteChar
    | .Delete => ta.deleteNextChar
    | .Up => ta.moveCursor .Up
    | .Down => ta.moveCursor .Down
    | _ => ta

/-- Embedding of App::check_wrap (app.rs lines 736 to 777): if the
cursor line exceeds the hard wrap limit and its first ninety
characters contain a space, jump to the last such space (through u16
casts), delete it, insert a newline there, and, when the original
column was beyond the split point, relocate the cursor into the new
line. -/
def Textarea.checkWrap (ta : Textarea) : Textarea :=
  match ta.lines.get? ta.row with
  | none => ta
  | some line =>
    if line.length > HARD_WRAP_LIMIT then
      match rfindSpace (line.take HARD_WRAP_LIMIT) with
      | none => ta
      | some spaceIdx =>
        let ta1 := ta.moveCursor (.Jump (ta.row % U16) (spaceIdx % U16))
        let ta2 := ta1.deleteNextChar
        let ta3 := ta2.insertNewline
        if ta.col > spaceIdx then
          ta3.moveCursor (.Jump ((ta.row + 1) % U16) ((ta.col - spaceIdx - 1) % U16))
        else ta3
    else ta

/-! Concrete buffers exercising the soft-wrap engine. -/

/-- A ninety-one character line with its only space at index two. -/
def wLine : Txt := 'a' :: 'b' :: spaceChar :: List.replicate 88 'c'

/-- A buffer holding that line with the cursor at its end. -/
def wTA : Textarea := ⟨[wLine], 0, 91, none, []⟩

/-- The same buffer with the cursor at column zero, before the split
point. -/
def wTA0 : Textarea := ⟨[wLine], 0, 0, none, []⟩

/-- A conforming line of exactly ninety characters. -/
def wLine90 : Txt := List.replicate 90 'c'

/-- A buffer holding the conforming line. -/
def wTA90 : Textarea := ⟨[wLine90], 0, 90, none, []⟩

/-- A three line buffer whose middle line is over the limit. -/
def wTA3 : Textarea := ⟨[['t'], wLine, ['z']], 1, 91, none, []⟩

/-- The five character line ab cd, with a space at index two. -/
def abcdLine : Txt := ['a', 'b', spaceChar, 'c', 'd']

/-- Sixty-five thousand five hundred thirty-five filler lines followed
by the over-limit line. -/
def bigRest : List Txt := List.replicate 65535 ['c'] ++ [wLine]

/-- A buffer of 65537 lines whose cursor sits on row 65536, an
over-limit line; the row is outside the u16 range of the Jump casts,
so check_wrap edits row 65536 mod 65536 = 0 instead. -/
def bigTA : Textarea :=
  { lines := abcdLine :: bigRest, row := 65536, col := 91, sel := none, yank := [] }

/-- A single line of 65600 characters with its only space at index
two. -/
def hugeLine : Txt := 'a' :: 'b' :: spaceChar :: List.replicate 65597 'c'

/-- A buffer holding that line with the cursor at its end; the
relocated column 65597 is outside the u16 range of the Jump cast. -/
def hugeTA : Textarea := { lines := [hugeLine], row := 0, col := 65600, sel := none, yank := [] }

/-! The application state machine of app.rs. -/

/-- Top level application mode (app.rs lines 12 to 23). -/
inductive Mode where
  | Splash | Menu | Writing | Flow | FlowHistory | Settings
  | Drafts | PopupInput | SpellCheck
deriving DecidableEq

/-- The vim style sub-mode of Writing (app.rs lines 25 to 30). -/
inductive EditorMode where
  | Normal | Insert | Visual
deriving DecidableEq

/-- Reason the input popup is open (app.rs lines 32 to 38). -/
inductive PopupAction where
  | None
  | RenameDraft (old : Txt)
  | NewDraftFromSelection (content : Txt)
  | AppendToDraftFromSelection
deriving DecidableEq

/-- Settings record.  storage.rs lines 14 to 19 declare
default_extension, storage_path and vim_mode; app.rs additionally uses
show_splash_screen, spellcheck_enabled and last_seen_version, whose
declaration is not among the given sources.  Modelled from the spec:
section 6 lists the persisted settings record with exactly these six
fields. -/
structure Settings where
  default_extension : Txt
  storage_path : Txt
  vim_mode : Bool
  show_splash_screen : Bool
  spellcheck_enabled : Bool
  last_seen_version : Txt
deriving DecidableEq

/-- A flow history entry (storage.rs lines 7 to 12); the chrono
timestamp is embedded as a natural number instant. -/
structure FlowEntry where
  timestamp : Nat
  duration_minutes : Nat
  text : Txt
deriving DecidableEq

/-- The persistent storage of storage.rs, embedded in memory: the
settings file, the draft files (name and content, one entry per file
name) and the flow history file.  File IO always succeeds in this
embedding; the spec (section 7) makes persistence failures non-fatal
no-ops reported only through the message overlay. -/
structure Storage where
  settings : Settings
  drafts : List (Txt × Txt)
  flowHistory : List FlowEntry
deriving DecidableEq

namespace Storage

/-- Storage::load_draft: the content stored under a file name. -/
def lookupDraft (st : Storage) (name : Txt) : Option Txt :=
  match st.drafts.find? (fun p => p.1 == name) with
  | some p => some p.2
  | none => none

/-- Writing a draft file: replace the entry with that name or create
it. -/
def upsertDraft (name content : Txt) : List (Txt × Txt) → List (Txt × Txt)
  | [] => [(name, content)]
  | p :: ps =>
    if p.1 == name then (name, content) :: ps else p :: upsertDraft name content ps

/-- Storage::save_draft (storage.rs lines 121 to 129). -/
def save_draft (st : Storage) (name content : Txt) : Storage :=
  { st with drafts := upsertDraft name content st.drafts }

/-- Storage::list_drafts (storage.rs lines 131 to 148): the stored
file names, sorted. -/
def list_drafts (st : Storage) : List Txt :=
  List.insertionSort (fun a b => lexLE a b = true) (st.drafts.map Prod.fst)

/-- Removing a draft file by name. -/
def removeDraft (name : Txt) (l : List (Txt × Txt)) : List (Txt × Txt) :=
  l.filter (fun p => !(p.1 == name))

/-- Storage::rename_draft (storage.rs lines 157 to 163): fs::rename
fails when the source file is missing, and otherwise moves the
content to the new name, replacing any file already there. -/
def rename_draft (st : Storage) (old newName : Txt) : Option Storage :=
  match st.lookupDraft old with
  | none => none
  | some c =>
    some { st with drafts := upsertDraft newName c (removeDraft old st.drafts) }

/-- Storage::delete_draft (storage.rs lines 165 to 172): removing a
missing file is also a success. -/
def delete_draft (st : Storage) (name : Txt) : Storage :=
  { st with drafts := removeDraft name st.drafts }

/-- Storage::save_flow_entry (storage.rs lines 109 to 119): push the
entry and re-sort newest first by timestamp. -/
def save_flow_entry (st : Storage) (e : FlowEntry) : Storage :=
  { st with
    flowHistory :=
      List.insertionSort (fun a b => b.timestamp ≤ a.timestamp) (st.flowHistory ++ [e]) }

/-- Storage::save_settings. -/
def save_settings (st : Storage) (s : Settings) : Storage :=
  { st with settings := s }

end Storage

/-- The application state (app.rs lines 40 to 71).  The two ListState
values are embedded as their selected index; the external spellchecker
is carried as a function; the storage, a set of files in the Rust
program, is embedded as a field so that every state change stays
explicit. -/
structure App where
  mode : Mode
  editor_mode : EditorMode
  popup_action : PopupAction
  popup_textarea : Textarea
  should_quit : Bool
  textarea : Textarea
  focus_mode_active : Bool
  preview_mode_active : Bool
  settings : Settings
  splash_start : Option Nat
  version : Txt
  drafts : List Txt
  drafts_state : Option Nat
  current_draft_name : Option Txt
  flow_duration : Nat
  flow_start : Option Nat
  flow_remaining : Nat
  history_state : Option Nat
  history : List FlowEntry
  message : Option Txt
  message_time : Option Nat
  spellchecker : Txt → List Txt
  misspelled_words : List Txt
  storage : Storage

/-- Decimal rendering of a natural number. -/
def natTxt (n : Nat) : Txt := (Nat.repr n).data

/-- The draft file name synthesised on Ctrl+S with no current draft.
The chrono timestamp format of app.rs line 417 is embedded as the
decimal instant; the exact text of the name is irrelevant to every
claim. -/
def draftTimestampName (now : Nat) (ext : Txt) : Txt :=
  "draft_".data ++ natTxt now ++ dotChar :: ext

/-! Message overlay texts of app.rs (quote characters dropped). -/

def msgWritingMode : Txt := "Writing mode".data
def msgFlowEnded : Txt := "Flow session ended.".data
def msgSavedFlow : Txt := "Saved flow session.".data
def msgDeletedDraft : Txt := "Deleted draft".data
def msgErrorLoadingDraft : Txt := "Error loading draft".data
def msgLoadedDraft (name : Txt) : Txt := "Loaded ".data ++ name
def msgOpenedAppend : Txt :=
  "Opened draft (Paste with p if you yanked selection)".data
def msgCaptured (n : Nat) : Txt := "Captured ".data ++ natTxt n ++ " bytes".data
def msgYanked (n : Nat) : Txt := "Yanked ".data ++ natTxt n ++ " characters".data
def msgNoTextSelected : Txt := "No text selected".data
def msgSelectDraftAppend : Txt := "Select draft to append to".data
def msgSavedSelection (name : Txt) : Txt := "Saved selection to ".data ++ name
def msgErrorRenaming : Txt := "Error renaming".data
def msgRenamed (name : Txt) : Txt := "Renamed to ".data ++ name
def msgSavedDraft (name : Txt) : Txt := "Saved ".data ++ name
def msgFocusOn : Txt := "Focus Mode ON".data
def msgFocusOff : Txt := "Focus Mode OFF".data
def msgPreviewOn : Txt := "Preview ON".data
def msgPreviewOff : Txt := "Preview OFF".data
def msgSaveFirstRename : Txt := "Save first to rename".data
def msgLoadedHistory : Txt := "Loaded history entry".data

namespace App

/-- App::set_message (app.rs lines 202 to 205). -/
def set_message (a : App) (msg : Txt) (now : Nat) : App :=
  { a with message := some msg, message_time := some now }

/-- App::start_flow (app.rs lines 166 to 174). -/
def start_flow (a : App) (duration_mins : Nat) (now : Nat) : App :=
  { a with
    mode := Mode.Flow
    preview_mode_active := false
    flow_duration := duration_mins * 60
    flow_remaining := duration_mins * 60
    flow_start := some now
    textarea := Textarea.empty }

/-- App::save_flow_entry (app.rs lines 185 to 200): nothing happens
when the trimmed buffer is empty; otherwise the entry is persisted and
the save is reported (storage always succeeds in this embedding).  The
duration is stored through the `as u32` cast of app.rs line 192,
embedded as a reduction modulo 2^32. -/
def save_flow_entry (a : App) (now : Nat) : App :=
  let text := joinNL a.textarea.lines
  if trim text = [] then a
  else
    let entry : FlowEntry :=
      { timestamp := now, duration_minutes := a.flow_duration / 60 % 4294967296,
        text := text }
    ({ a with storage := a.storage.save_flow_entry entry }).set_message msgSavedFlow now

/-- App::end_flow (app.rs lines 176 to 183). -/
def end_flow (a : App) (save : Bool) (now : Nat) : App :=
  let a1 := if save then a.save_flow_entry now else a
  ({ a1 with mode := Mode.Menu, flow_start := none }).set_message msgFlowEnded now

/-- App::load_history (app.rs lines 644 to 656), with loading always
succeeding. -/
def load_history (a : App) : App :=
  let h := a.storage.flowHistory
  { a with history := h, history_state := if h.isEmpty then none else some 0 }

/-- App::load_drafts (app.rs lines 658 to 670), with loading always
succeeding. -/
def load_drafts (a : App) : App :=
  let d := a.storage.list_drafts
  { a with drafts := d, drafts_state := if d.isEmpty then none else some 0 }

/-- App::next_history (app.rs lines 672 to 684). -/
def next_history (a : App) : App :=
  let i :=
    match a.history_state with
    | some i => if i ≥ a.history.length - 1 then 0 else i + 1
    | none => 0
  { a with history_state := some i }

/-- App::previous_history (app.rs lines 686 to 698). -/
def previous_history (a : App) : App :=
  let i :=
    match a.history_state with
    | some i => if i = 0 then a.history.length - 1 else i - 1
    | none => 0
  { a with history_state := some i }

/-- App::next_draft (app.rs lines 700 to 716). -/
def next_draft (a : App) : App :=
  let i :=
    match a.drafts_state with
    | some i =>
      if !a.drafts.isEmpty then
        if i ≥ a.drafts.length - 1 then 0 else i + 1
      else 0
    | none => 0
  { a with drafts_state := some i }

/-- App::previous_draft (app.rs lines 718 to 734). -/
def previous_draft (a : App) : App :=
  let i :=
    match a.drafts_state with
    | some i =>
      if !a.drafts.isEmpty then
        if i = 0 then a.drafts.length - 1 else i - 1
      else 0
    | none => 0
  { a with drafts_state := some i }

/-- App::check_wrap applied to the primary buffer. -/
def check_wrap (a : App) : App := { a with textarea := a.textarea.checkWrap }

/-- App::tick (app.rs lines 131 to 164): splash timeout, flow
countdown and expiry, message overlay expiry. -/
def tick (a : App) (now : Nat) : App :=
  let a1 :=
    if a.mode = Mode.Splash then
      match a.splash_start with
      | some start =>
        if 30 ≤ now - start then
          let a2 := { a with
            mode := Mode.Menu
            splash_start := none
            settings := { a.settings with last_seen_version := a.version } }
          { a2 with storage := a2.storage.save_settings a2.settings }
        else a
      | none => a
    else a
  let a3 :=
    if a1.mode = Mode.Flow then
      match a1.flow_start with
      | some start =>
        if a1.flow_duration ≤ now - start then
          ({ a1 with flow_remaining := 0 }).end_flow true now
        else { a1 with flow_remaining := a1.flow_duration - (now - start) }
      | none => a1
    else a1
  match a3.message_time with
  | some t =>
    if 3 < now - t then { a3 with message := none, message_time := none } else a3
  | none => a3

end App

/-- App::default (app.rs lines 73 to 118): settings come from storage,
the editor mode follows the modal toggle, and the splash screen shows
on first run or after an upgrade.  The wall clock instant, the package
version and the spellchecker are passed in explicitly. -/
def initApp (st : Storage) (version : Txt) (now : Nat) (spell : Txt → List Txt) : App :=
  let settings := st.settings
  let shouldShowSplash :=
    settings.show_splash_screen || !(settings.last_seen_version == version)
  { mode := if shouldShowSplash then Mode.Splash else Mode.Menu
    editor_mode := if settings.vim_mode then EditorMode.Normal else EditorMode.Insert
    popup_action := PopupAction.None
    popup_textarea := Textarea.empty
    should_quit := false
    textarea := Textarea.empty
    focus_mode_active := false
    preview_mode_active := false
    settings := settings
    splash_start := if shouldShowSplash then some now else none
    version := version
    drafts := []
    drafts_state := none
    current_draft_name := none
    flow_duration := 600
    flow_start := none
    flow_remaining := 600
    history_state := none
    history := []
    message := none
    message_time := none
    spellchecker := spell
    misspelled_words := []
    storage := st }

/-- The Splash arm of App::handle_key_event (app.rs lines 209 to
216): any key skips the splash screen and records the version. -/
def handleSplash (a : App) (_key : KeyEvent) (_now : Nat) : App :=
  let a2 := { a with
    mode := Mode.Menu
    splash_start := none
    settings := { a.settings with last_seen_version := a.version } }
  { a2 with storage := a2.storage.save_settings a2.settings }

/-- The Menu arm of App::handle_key_event (app.rs lines 217 to
238). -/
def handleMenu (a : App) (key : KeyEvent) (now : Nat) : App :=
  match key.code with
  | .Char c =>
    if c = 'q' then { a with should_quit := true }
    else if c = 'f' then a.start_flow 10 now
    else if c = '5' then a.start_flow 5 now
    else if c = 's' then { a with mode := Mode.Settings }
    else if c = 'n' then
      ({ a with
        mode := Mode.Writing
        textarea := Textarea.empty
        preview_mode_active := false }).set_message msgWritingMode now
    else if c = 'h' then ({ a with mode := Mode.FlowHistory }).load_history
    else if c = 'd' then ({ a with mode := Mode.Drafts }).load_drafts
    else a
  | _ => a

/-- Deleting the selected draft in Drafts mode (app.rs lines 354 to
366), with the storage delete always succeeding. -/
def deleteSelectedDraft (a : App) (now : Nat) : App :=
  match a.drafts_state with
  | some idx =>
    if idx < a.drafts.length then
      let filename := a.drafts.getD idx []
      (({ a with storage := a.storage.delete_draft filename }).set_message
        msgDeletedDraft now).load_drafts
    else a
  | none => a

/-- The Drafts arm of App::handle_key_event (app.rs lines 239 to
368): Escape cancels any pending action, Enter opens the selected
draft (appending position when the append action is pending), r opens
the rename popup, d or Delete removes the draft. -/
def handleDrafts (a : App) (key : KeyEvent) (now : Nat) : App :=
  match key.code with
  | .Esc => { a with mode := Mode.Menu, popup_action := PopupAction.None }
  | .Down => a.next_draft
  | .Up => a.previous_draft
  | .Enter =>
    match a.drafts_state with
    | some idx =>
      if idx < a.drafts.length then
        let filename := a.drafts.getD idx []
        match a.popup_action with
        | .AppendToDraftFromSelection =>
          match a.storage.lookupDraft filename with
          | some content =>
            let ta := Textarea.mk' (rustLines content)
            let ta := ta.moveCursor CursorMove.Bottom
            let ta := ta.moveCursor CursorMove.End
            let ta := ta.insertStr [nlChar]
            ({ a with
              textarea := ta
              mode := Mode.Writing
              current_draft_name := some filename
              popup_action := PopupAction.None }).set_message msgOpenedAppend now
          | none => a
        | _ =>
          match a.storage.lookupDraft filename with
          | some content =>
            ({ a with
              textarea := Textarea.mk' (rustLines content)
              mode := Mode.Writing
              current_draft_name := some filename }).set_message
                (msgLoadedDraft filename) now
          | none => a.set_message msgErrorLoadingDraft now
      else a
    | none => a
  | .Delete => deleteSelectedDraft a now
  | .Char c =>
    if c = 'r' then
      match a.drafts_state with
      | some idx =>
        if idx < a.drafts.length then
          let filename := a.drafts.getD idx []
          { a with
            mode := Mode.PopupInput
            popup_action := PopupAction.RenameDraft filename
            popup_textarea := Textarea.empty.insertStr filename }
        else a
      | none => a
    else if c = 'd' then deleteSelectedDraft a now
    else a
  | _ => a

/-- The Settings arm of App::handle_key_event (app.rs lines 369 to
401): toggles persist immediately and always succeed in this
embedding. -/
def handleSettings (a : App) (key : KeyEvent) (_now : Nat) : App :=
  match key.code with
  | .Esc => { a with mode := Mode.Menu }
  | .Char c =>
    if c = 'q' then { a with mode := Mode.Menu }
    else if c = 'e' then
      let s2 :=
        if a.settings.default_extension = "txt".data then
          { a.settings with default_extension := "md".data }
        else { a.settings with default_extension := "txt".data }
      { a with settings := s2, storage := a.storage.save_settings s2 }
    else if c = 'v' then
      let s2 := { a.settings with vim_mode := !a.settings.vim_mode }
      { a with settings := s2, storage := a.storage.save_settings s2 }
    else if c = 's' then
      let s2 := { a.settings with show_splash_screen := !a.settings.show_splash_screen }
      { a with settings := s2, storage := a.storage.save_settings s2 }
    else if c = 'c' then
      let s2 := { a.settings with spellcheck_enabled := !a.settings.spellcheck_enabled }
      { a with settings := s2, storage := a.storage.save_settings s2 }
    else a
  | _ => a

/-- The SpellCheck arm of App::handle_key_event (app.rs lines 402 to
408). -/
def handleSpellCheck (a : App) (key : KeyEvent) (_now : Nat) : App :=
  match key.code with
  | .Esc => { a with mode := Mode.Writing, misspelled_words := [] }
  | .Char c =>
    if c = 'q' then { a with mode := Mode.Writing, misspelled_words := [] }
    else a
  | _ => a

/-- The Writing arm of App::handle_key_event (app.rs lines 409 to
559): the control chords come first, then preview swallows input,
then the non-modal or the modal sub-editor runs. -/
def handleWriting (a : App) (key : KeyEvent) (now : Nat) : App :=
  if key.code = KeyCode.Char 's' ∧ key.ctrl = true then
    let filename :=
      match a.current_draft_name with
      | some name => name
      | none => draftTimestampName now a.settings.default_extension
    ({ a with
      storage := a.storage.save_draft filename (joinNL a.textarea.lines)
      current_draft_name := some filename }).set_message (msgSavedDraft filename) now
  else if key.code = KeyCode.Char 'f' ∧ key.ctrl = true then
    let f2 := !a.focus_mode_active
    ({ a with focus_mode_active := f2 }).set_message
      (if f2 then msgFocusOn else msgFocusOff) now
  else if key.code = KeyCode.Char 'p' ∧ key.ctrl = true then
    let p2 := !a.preview_mode_active
    ({ a with preview_mode_active := p2 }).set_message
      (if p2 then msgPreviewOn else msgPreviewOff) now
  else if key.code = KeyCode.Char 'l' ∧ key.ctrl = true then
    if a.settings.spellcheck_enabled then
      { a with
        misspelled_words :=
          List.insertionSort (fun x y => lexLE x y = true)
            (a.spellchecker (joinNL a.textarea.lines))
        mode := Mode.SpellCheck }
    else a
  else if key.code = KeyCode.Char 'r' ∧ key.ctrl = true then
    match a.current_draft_name with
    | some name =>
      { a with
        mode := Mode.PopupInput
        popup_action := PopupAction.RenameDraft name
        popup_textarea := Textarea.empty.insertStr name }
    | none => a.set_message msgSaveFirstRename now
  else
    if a.preview_mode_active then a
    else if a.settings.vim_mode = false then
      match key.code with
      | .Esc => { a with mode := Mode.Menu, current_draft_name := none }
      | _ => ({ a with textarea := a.textarea.input key }).check_wrap
    else
      match a.editor_mode with
      | .Insert =>
        match key.code with
        | .Esc => { a with editor_mode := EditorMode.Normal }
        | _ => ({ a with textarea := a.textarea.input key }).check_wrap
      | .Normal =>
        match key.code with
        | .Esc => { a with mode := Mode.Menu, current_draft_name := none }
        | .Char c =>
          if c = 'i' then { a with editor_mode := EditorMode.Insert }
          else if c = 'v' then
            { a with
              editor_mode := EditorMode.Visual
              textarea := a.textarea.startSelection }
          else if c = 'h' then { a with textarea := a.textarea.moveCursor .Back }
          else if c = 'j' then { a with textarea := a.textarea.moveCursor .Down }
          else if c = 'k' then { a with textarea := a.textarea.moveCursor .Up }
          else if c = 'l' then { a with textarea := a.textarea.moveCursor .Forward }
          else if c = 'w' then { a with textarea := a.textarea.moveCursor .WordForward }
          else if c = 'b' then { a with textarea := a.textarea.moveCursor .WordBack }
          else if c = 'x' then { a with textarea := a.textarea.deleteNextChar }
          else if c = 'u' then { a with textarea := a.textarea.undo }
          else a
        | _ => a
      | .Visual =>
        match key.code with
        | .Esc =>
          { a with
            editor_mode := EditorMode.Normal
            textarea := a.textarea.cancelSelection }
        | .Char c =>
          if c = 'h' then { a with textarea := a.textarea.moveCursor .Back }
          else if c = 'j' then { a with textarea := a.textarea.moveCursor .Down }
          else if c = 'k' then { a with textarea := a.textarea.moveCursor .Up }
          else if c = 'l' then { a with textarea := a.textarea.moveCursor .Forward }
          else if c = 'w' then { a with textarea := a.textarea.moveCursor .WordForward }
          else if c = 'b' then { a with textarea := a.textarea.moveCursor .WordBack }
          else if c = 'n' then
            let ta2 := a.textarea.copy
            let content := ta2.yankText
            if content = [] then
              ({ a with
                textarea := ta2.cancelSelection
                editor_mode := EditorMode.Normal }).set_message msgNoTextSelected now
            else
              ({ a with
                textarea := ta2
                mode := Mode.PopupInput
                popup_action := PopupAction.NewDraftFromSelection content
                popup_textarea := Textarea.empty }).set_message
                  (msgCaptured content.length) now
          else if c = 'y' then
            let ta2 := a.textarea.copy
            let content := ta2.yankText
            ({ a with
              textarea := ta2.cancelSelection
              editor_mode := EditorMode.Normal }).set_message
                (msgYanked content.length) now
          else if c = 'a' then
            (({ a with
              mode := Mode.Drafts
              popup_action := PopupAction.AppendToDraftFromSelection }).set_message
                msgSelectDraftAppend now).load_drafts
          else a
        | _ => a

/-- The Flow arm of App::handle_key_event (app.rs lines 560 to
568). -/
def handleFlow (a : App) (key : KeyEvent) (now : Nat) : App :=
  match key.code with
  | .Esc => a.end_flow true now
  | _ => ({ a with textarea := a.textarea.input key }).check_wrap

/-- The FlowHistory arm of App::handle_key_event (app.rs lines 569 to
589). -/
def handleFlowHistory (a : App) (key : KeyEvent) (now : Nat) : App :=
  match key.code with
  | .Esc => { a with mode := Mode.Menu }
  | .Down => a.next_history
  | .Up => a.previous_history
  | .Enter =>
    match a.history_state with
    | some idx =>
      if idx < a.history.length then
        ({ a with
          textarea := Textarea.mk' (rustLines ((a.history.getD idx ⟨0, 0, []⟩).text))
          mode := Mode.Writing }).set_message msgLoadedHistory now
      else a
    | none => a
  | _ => a

/-- The PopupInput arm of App::handle_key_event (app.rs lines 590 to
640): Escape returns to Drafts for a rename and to Writing otherwise;
Enter commits the pending action and always clears it; every other
key goes to the popup buffer. -/
def handlePopup (a : App) (key : KeyEvent) (now : Nat) : App :=
  match key.code with
  | .Esc =>
    let m :=
      match a.popup_action with
      | .RenameDraft _ => Mode.Drafts
      | _ => Mode.Writing
    { a with mode := m, popup_action := PopupAction.None }
  | .Enter =>
    let input := a.popup_textarea.lines.flatten
    let a1 :=
      match a.popup_action with
      | .NewDraftFromSelection content =>
        let filename := trim input
        if filename = [] then a
        else
          let finalName :=
            if filename.contains dotChar then filename
            else filename ++ dotChar :: a.settings.default_extension
          let a2 := ({ a with
            storage := a.storage.save_draft finalName content }).set_message
              (msgSavedSelection finalName) now
          { a2 with
            mode := Mode.Writing
            editor_mode := EditorMode.Normal
            textarea := a2.textarea.cancelSelection }
      | .RenameDraft oldName =>
        let newName := trim input
        if newName = [] then a
        else
          match a.storage.rename_draft oldName newName with
          | none => a.set_message msgErrorRenaming now
          | some st2 =>
            let a2 := (({ a with storage := st2 }).set_message
              (msgRenamed newName) now)
            let a3 := ({ a2 with mode := Mode.Drafts }).load_drafts
            match a3.current_draft_name with
            | some cur =>
              if cur = oldName then { a3 with current_draft_name := some newName }
              else a3
            | none => a3
      | _ => a
    { a1 with popup_action := PopupAction.None }
  | _ => { a with popup_textarea := a.popup_textarea.input key }

/-- App::handle_key_event (app.rs lines 207 to 642): dispatch on the
current mode. -/
def App.handle_key_event (a : App) (key : KeyEvent) (now : Nat) : App :=
  match a.mode with
  | .Splash => handleSplash a key now
  | .Menu => handleMenu a key now
  | .Drafts => handleDrafts a key now
  | .Settings => handleSettings a key now
  | .SpellCheck => handleSpellCheck a key now
  | .Writing => handleWriting a key now
  | .Flow => handleFlow a key now
  | .FlowHistory => handleFlowHistory a key now
  | .PopupInput => handlePopup a key now

/-- Run a list of key events in order at a fixed instant. -/
def runKeys (a : App) (keys : List KeyEvent) (now : Nat) : App :=
  keys.foldl (fun s k => s.handle_key_event k now) a

/-- A plain key press without the control modifier. -/
def keyChar (c : Char) : KeyEvent := { code := KeyCode.Char c, ctrl := false }

/-- The Escape key without modifiers. -/
def keyEsc : KeyEvent := { code := KeyCode.Esc, ctrl := false }

/-- The Enter key without modifiers. -/
def keyEnter : KeyEvent := { code := KeyCode.Enter, ctrl := false }

/-! Concrete states exercising the application state machine. -/

/-- A concrete package version string. -/
def exVersion : Txt := "1".data

/-- Concrete settings with the modal editor enabled, the splash
disabled, and the version already seen. -/
def exSettings : Settings :=
  { default_extension := "txt".data, storage_path := [], vim_mode := true,
    show_splash_screen := false, spellcheck_enabled := false,
    last_seen_version := "1".data }

/-- Concrete storage holding one draft. -/
def exStorage : Storage :=
  { settings := exSettings
    drafts := [("d.txt".data, "hi".data)]
    flowHistory := [] }

/-- Concrete storage with the modal editor disabled. -/
def exStorageNoVim : Storage :=
  { exStorage with settings := { exSettings with vim_mode := false } }

/-- The application as constructed at startup over exStorage. -/
def exApp : App := initApp exStorage exVersion 0 (fun _ => [])

/-- The application as constructed at startup over exStorageNoVim. -/
def exAppNoVim : App := initApp exStorageNoVim exVersion 0 (fun _ => [])

/-- Reachable run for claim C1: new buffer, enter Visual, start the
append workflow, confirm the append target. -/
def exRunC1 : App := runKeys exApp [keyChar 'n', keyChar 'v', keyChar 'a', keyEnter] 0

/-- Reachable run for claim C8: new buffer, enter Visual, start the
append workflow, abort from Drafts, open a fresh buffer from Menu. -/
def exRunC8 : App :=
  runKeys exApp [keyChar 'n', keyChar 'v', keyChar 'a', keyEsc, keyChar 'n'] 0

/-- The Ctrl+P chord toggling preview. -/
def keyCtrlP : KeyEvent := { code := KeyCode.Char 'p', ctrl := true }

/-- Reachable state for claim C6: a Writing state with preview active
and the modal editor disabled. -/
def exPreviewApp : App := runKeys exAppNoVim [keyChar 'n', keyCtrlP] 0

/-- A buffer holding the two character text hi. -/
def taHi : Textarea := { lines := ["hi".data], row := 0, col := 2, sel := none, yank := [] }

/-- A concrete Flow state with a non-empty buffer, ten minutes
configured, started at instant zero. -/
def exFlowApp : App :=
  { exApp with
    mode := Mode.Flow
    flow_start := some 0
    flow_duration := 600
    flow_remaining := 600
    textarea := taHi }

/-- A Flow state whose configured duration is 2^32 minutes (reachable
through the u64 --time flag of the CLI): 2^32 times 60 seconds. -/
def exFlowAppHuge : App := { exFlowApp with flow_duration := 257698037760 }

/-- A concrete PopupInput state with a pending new-draft action and a
typed name. -/
def exPopupNew : App :=
  { exApp with
    mode := Mode.PopupInput
    popup_action := PopupAction.NewDraftFromSelection ("sel text".data)
    popup_textarea := { lines := ["mydraft".data], row := 0, col := 7, sel := none, yank := [] }
    editor_mode := EditorMode.Visual
    textarea := { lines := ["abc".data], row := 0, col := 1, sel := some (0, 0), yank := "sel text".data } }

/-- A concrete PopupInput state with a pending rename and a blank
typed name. -/
def exPopupRename : App :=
  { exApp with
    mode := Mode.PopupInput
    popup_action := PopupAction.RenameDraft ("d.txt".data)
    popup_textarea := { lines := ["   ".data], row := 0, col := 3, sel := none, yank := [] }
    drafts := ["d.txt".data]
    drafts_state := some 0 }

/-- A concrete Drafts state with the single draft selected. -/
def exDraftsApp : App :=
  { exApp with
    mode := Mode.Drafts
    drafts := ["d.txt".data]
    drafts_state := some 0 }

/-- A reachable Writing state in Visual mode: new buffer from Menu,
then v. -/
def exVisualApp : App := runKeys exApp [keyChar 'n', keyChar 'v'] 0

/-- A reachable Writing state in Normal mode: new buffer from Menu. -/
def exNormalApp : App := runKeys exApp [keyChar 'n'] 0

/-! Lemmas about rfindSpace. -/

theorem rfindSpace_none_not_mem : ∀ {l : Txt}, rfindSpace l = none → spaceChar ∉ l := by
  intro l
  induction l with
  | nil => intro _ h; cases h
  | cons c cs ih =>
    intro h hmem
    unfold rfindSpace at h
    cases hcs : rfindSpace cs with
    | some i => rw [hcs] at h; cases h
    | none =>
      rw [hcs] at h
      by_cases hc : c = spaceChar
      · rw [if_pos hc] at h; cases h
      · rw [if_neg hc] at h
        cases List.mem_cons.mp hmem with
        | inl he => exact hc he.symm
        | inr hm => exact ih hcs hm

theorem rfindSpace_some_of_mem : ∀ {l : Txt}, spaceChar ∈ l → ∃ s, rfindSpace l = some s := by
  intro l hmem
  cases h : rfindSpace l with
  | some s => exact ⟨s, rfl⟩
  | none => exact absurd hmem (rfindSpace_none_not_mem h)

theorem rfindSpace_spec : ∀ {l : Txt} {s : Nat}, rfindSpace l = some s →
    s < l.length ∧ l.get? s = some spaceChar ∧
      ∀ j, s < j → l.get? j ≠ some spaceChar := by
  intro l
  induction l with
  | nil => intro s h; cases h
  | cons c cs ih =>
    intro s h
    unfold rfindSpace at h
    cases hcs : rfindSpace cs with
    | some i =>
      rw [hcs] at h
      cases h
      obtain ⟨h1, h2, h3⟩ := ih hcs
      refine ⟨by simpa using Nat.succ_lt_succ h1, by simpa using h2, ?_⟩
      intro j hj
      cases j with
      | zero => omega
      | succ j2 =>
        simp only [List.get?_cons_succ]
        exact h3 j2 (Nat.lt_of_succ_lt_succ hj)
    | none =>
      rw [hcs] at h
      by_cases hc : c = spaceChar
      · rw [if_pos hc] at h
        cases h
        refine ⟨Nat.succ_pos _, by simpa using hc, ?_⟩
        intro j hj
        cases j with
        | zero => omega
        | succ j2 =>
          simp only [List.get?_cons_succ]
          intro hget
          exact rfindSpace_none_not_mem hcs (List.get?_mem hget)
      · rw [if_neg hc] at h; cases h

/-! Small list facts used to characterise the split. -/

theorem take_get_drop : ∀ {l : Txt} {s : Nat} {c : Char}, l.get? s = some c →
    l.take s ++ c :: l.drop (s + 1) = l := by
  intro l
  induction l with
  | nil => intro s c h; cases h
  | cons a t ih =>
    intro s c h
    cases s with
    | zero =>
      simp only [List.get?_cons_zero, Option.some.injEq] at h
      simp [h]
    | succ s2 =>
      simp only [List.get?_cons_succ] at h
      simp only [List.take_succ_cons, List.drop_succ_cons, List.cons_append]
      rw [ih h]

theorem take_set_self : ∀ (l : List Txt) (i : Nat) (a : Txt), (l.set i a).take i = l.take i := by
  intro l
  induction l with
  | nil => intro i a; simp
  | cons b t ih =>
    intro i a
    cases i with
    | zero => simp
    | succ i2 => simp [List.set_cons_succ, List.take_succ_cons, ih]

/-- Cursor movement never changes the line contents. -/
theorem moveCursor_lines (ta : Textarea) (m : CursorMove) :
    (ta.moveCursor m).lines = ta.lines := by
  cases m <;> simp only [Textarea.moveCursor] <;> split <;> try split
  all_goals rfl

/-- The result of check_wrap when the cursor line is over the limit
and a space exists among its first ninety characters: the line is
replaced by the two halves around the last such space, the remaining
lines are untouched, and the cursor lands at the head of the second
half unless the original column was beyond the split point. -/
theorem checkWrap_split_eq (ta : Textarea) (line : Txt) (s : Nat)
    (hline : ta.lines.get? ta.row = some line)
    (hrow : ta.row < U16)
    (hlen : HARD_WRAP_LIMIT < line.length)
    (hs : rfindSpace (line.take HARD_WRAP_LIMIT) = some s) :
    ta.checkWrap =
      (if s < ta.col then
        (⟨ta.lines.take ta.row ++ [line.take s, line.drop (s + 1)] ++ ta.lines.drop (ta.row + 1),
          ta.row + 1, 0, ta.sel, ta.yank⟩ : Textarea).moveCursor
          (.Jump ((ta.row + 1) % U16) ((ta.col - s - 1) % U16))
      else
        ⟨ta.lines.take ta.row ++ [line.take s, line.drop (s + 1)] ++ ta.lines.drop (ta.row + 1),
          ta.row + 1, 0, ta.sel, ta.yank⟩) := by
  obtain ⟨hrowlt, _⟩ := List.get?_eq_some.mp hline
  have hslt : s < HARD_WRAP_LIMIT := by
    have := (rfindSpace_spec hs).1
    rw [List.length_take] at this
    omega
  have hs90 : HARD_WRAP_LIMIT = (90 : Nat) := rfl
  have hgetD : ta.lines.getD ta.row [] = line := by
    rw [List.getD_eq_getElem?_getD, ← List.get?_eq_getElem?, hline]
    rfl
  have e1 : ta.moveCursor (.Jump (ta.row % U16) (s % U16)) =
      (⟨ta.lines, ta.row, s, ta.sel, ta.yank⟩ : Textarea) := by
    have h1 : ta.row % U16 = ta.row := Nat.mod_eq_of_lt hrow
    have h2 : s % U16 = s := Nat.mod_eq_of_lt (by unfold U16 at *; omega)
    simp only [Textarea.moveCursor, h1, h2, Textarea.lineLen]
    have h3 : min ta.row (ta.lines.length - 1) = ta.row := by omega
    rw [h3, hgetD]
    have h4 : min s line.length = s := by omega
    rw [h4]
  set line2 : Txt := line.take s ++ line.drop (s + 1) with hline2
  have e2 : (⟨ta.lines, ta.row, s, ta.sel, ta.yank⟩ : Textarea).deleteNextChar =
      (⟨ta.lines.set ta.row line2, ta.row, s, ta.sel, ta.yank⟩ : Textarea) := by
    simp only [Textarea.deleteNextChar, Textarea.curLine, hgetD]
    rw [if_pos (by omega : s < line.length)]
  have hgetD2 : (ta.lines.set ta.row line2).getD ta.row [] = line2 := by
    rw [List.getD_eq_getElem?_getD, List.getElem?_set_self (by simpa using hrowlt)]
    rfl
  have htks : (line.take s).length = s := by
    rw [List.length_take]; omega
  have e3 : (⟨ta.lines.set ta.row line2, ta.row, s, ta.sel, ta.yank⟩ : Textarea).insertNewline =
      (⟨ta.lines.take ta.row ++ [line.take s, line.drop (s + 1)] ++ ta.lines.drop (ta.row + 1),
        ta.row + 1, 0, ta.sel, ta.yank⟩ : Textarea) := by
    simp only [Textarea.insertNewline, Textarea.curLine, hgetD2]
    have h5 : line2.take s = line.take s := by
      rw [hline2]
      exact List.take_left' htks
    have h6 : line2.drop s = line.drop (s + 1) := by
      rw [hline2]
      exact List.drop_left' htks
    have h7 : (ta.lines.set ta.row line2).take ta.row = ta.lines.take ta.row :=
      take_set_self _ _ _
    have h8 : (ta.lines.set ta.row line2).drop (ta.row + 1) = ta.lines.drop (ta.row + 1) := by
      rw [List.drop_set]
      simp
    rw [h5, h6, h7, h8]
  unfold Textarea.checkWrap
  rw [hline]
  simp only [gt_iff_lt, hlen, if_true, hs, e1, e2, e3]

/-- check_wrap does nothing when the cursor line does not exceed the
limit. -/
theorem checkWrap_noop_short (ta : Textarea) (line : Txt)
    (hline : ta.lines.get? ta.row = some line)
    (h : ¬ (HARD_WRAP_LIMIT < line.length)) : ta.checkWrap = ta := by
  unfold Textarea.checkWrap
  rw [hline]
  simp only [gt_iff_lt, h, if_false]

/-- check_wrap does nothing when no space is found among the first
ninety characters of the cursor line. -/
theorem checkWrap_noop_nospace (ta : Textarea) (line : Txt)
    (hline : ta.lines.get? ta.row = some line)
    (h : rfindSpace (line.take HARD_WRAP_LIMIT) = none) : ta.checkWrap = ta := by
  unfold Textarea.checkWrap
  rw [hline]
  by_cases hlen : HARD_WRAP_LIMIT < line.length
  · simp only [gt_iff_lt, hlen, if_true, h]
  · simp only [gt_iff_lt, hlen, if_false]

/-- check_wrap does nothing when the cursor row is out of range. -/
theorem checkWrap_noop_norow (ta : Textarea)
    (hline : ta.lines.get? ta.row = none) : ta.checkWrap = ta := by
  unfold Textarea.checkWrap
  rw [hline]

/-- Length of the filler block. -/
theorem bigRest_length : bigRest.length = 65536 := by
  rw [bigRest, List.length_append, List.length_replicate]
  rfl

/-- The big buffer holds 65537 lines. -/
theorem bigTA_lines_length : bigTA.lines.length = 65537 := by
  show (abcdLine :: bigRest).length = 65537
  rw [List.length_cons, bigRest_length]

/-- The cursor line of the big buffer is the over-limit line. -/
theorem bigTA_cursor_line : bigTA.lines.get? bigTA.row = some wLine := by
  show (abcdLine :: bigRest).get? 65536 = some wLine
  have h : (65536 : Nat) = 65535 + 1 := rfl
  rw [h, List.get?_cons_succ]
  show bigRest.get? 65535 = some wLine
  rw [bigRest, List.get?_eq_getElem?,
    List.getElem?_append_right (by rw [List.length_replicate]),
    List.length_replicate, Nat.sub_self]
  rfl

/-- The first Jump of check_wrap on the big buffer: the u16 cast
sends the cursor to row 0, not row 65536. -/
theorem bigTA_e1 : bigTA.moveCursor (.Jump (bigTA.row % U16) (2 % U16)) =
    (⟨abcdLine :: bigRest, 0, 2, none, []⟩ : Textarea) := by
  have hr : bigTA.row % U16 = 0 := by decide
  have hc : (2 : Nat) % U16 = 2 := by decide
  simp only [Textarea.moveCursor, Textarea.lineLen, hr, hc, Nat.zero_min]
  have hl : bigTA.lines.getD 0 [] = abcdLine := rfl
  rw [hl]
  have hm : min 2 abcdLine.length = 2 := by decide
  rw [hm]
  rfl

/-- Deleting the found space, applied at the wrong row 0. -/
theorem bigTA_e2 : ((⟨abcdLine :: bigRest, 0, 2, none, []⟩ : Textarea)).deleteNextChar =
    (⟨(['a', 'b', 'c', 'd'] : Txt) :: bigRest, 0, 2, none, []⟩ : Textarea) := rfl

/-- Inserting the newline, applied at the wrong row 0. -/
theorem bigTA_e3 :
    ((⟨(['a', 'b', 'c', 'd'] : Txt) :: bigRest, 0, 2, none, []⟩ : Textarea)).insertNewline =
    (⟨(['a', 'b'] : Txt) :: (['c', 'd'] : Txt) :: bigRest, 1, 0, none, []⟩ : Textarea) := rfl

/-- check_wrap on the big buffer splits line 0, not the cursor line
65536: the u16 cast redirects the whole edit. -/
theorem bigTA_checkWrap_lines :
    (bigTA.checkWrap).lines = (['a', 'b'] : Txt) :: (['c', 'd'] : Txt) :: bigRest := by
  have h90 : wLine.length > HARD_WRAP_LIMIT := by decide
  have hrf : rfindSpace (wLine.take HARD_WRAP_LIMIT) = some 2 := by decide
  unfold Textarea.checkWrap
  rw [bigTA_cursor_line]
  simp only [gt_iff_lt, h90, if_true, hrf]
  rw [apply_ite Textarea.lines, moveCursor_lines, ite_self, bigTA_e1, bigTA_e2, bigTA_e3]

/-- After check_wrap on the big buffer, line 0 has become ab. -/
theorem bigTA_checkWrap_line0 : (bigTA.checkWrap).lines.get? 0 = some (['a', 'b'] : Txt) := by
  rw [bigTA_checkWrap_lines]
  rfl

/-- Length of the huge line. -/
theorem hugeLine_length : hugeLine.length = 65600 := by
  show ('a' :: 'b' :: spaceChar :: List.replicate 65597 'c').length = 65600
  rw [List.length_cons, List.length_cons, List.length_cons, List.length_replicate]

/-- The first Jump of check_wrap on the huge line buffer. -/
theorem hugeTA_e1 : hugeTA.moveCursor (.Jump (hugeTA.row % U16) (2 % U16)) =
    (⟨[hugeLine], 0, 2, none, []⟩ : Textarea) := by
  have hr : hugeTA.row % U16 = 0 := by decide
  have hc : (2 : Nat) % U16 = 2 := by decide
  simp only [Textarea.moveCursor, Textarea.lineLen, hr, hc, Nat.zero_min]
  have hl : hugeTA.lines.getD 0 [] = hugeLine := rfl
  rw [hl, hugeLine_length]
  have hm : min 2 65600 = 2 := by decide
  rw [hm]
  rfl

/-- Deleting the space of the huge line. -/
theorem hugeTA_e2 : ((⟨[hugeLine], 0, 2, none, []⟩ : Textarea)).deleteNextChar =
    (⟨[('a' :: 'b' :: List.replicate 65597 'c' : Txt)], 0, 2, none, []⟩ : Textarea) := by
  simp only [Textarea.deleteNextChar, Textarea.curLine]
  have hl : ([hugeLine] : List Txt).getD 0 [] = hugeLine := rfl
  rw [hl, if_pos (by rw [hugeLine_length]; decide : (2 : Nat) < hugeLine.length)]
  have hset : ([hugeLine] : List Txt).set 0 (hugeLine.take 2 ++ hugeLine.drop (2 + 1)) =
      [('a' :: 'b' :: List.replicate 65597 'c' : Txt)] := by
    rw [List.set_cons_zero]
    rfl
  rw [hset]

/-- Splitting the huge line at the space position. -/
theorem hugeTA_e3 :
    ((⟨[('a' :: 'b' :: List.replicate 65597 'c' : Txt)], 0, 2, none, []⟩ : Textarea)).insertNewline =
    (⟨[(['a', 'b'] : Txt), List.replicate 65597 'c'], 1, 0, none, []⟩ : Textarea) := rfl

/-- The cursor relocation on the huge line: the u16 cast of the new
column wraps 65597 to 61. -/
theorem hugeTA_e4 :
    ((⟨[(['a', 'b'] : Txt), List.replicate 65597 'c'], 1, 0, none, []⟩ : Textarea)).moveCursor
      (.Jump ((hugeTA.row + 1) % U16) ((hugeTA.col - 2 - 1) % U16)) =
    (⟨[(['a', 'b'] : Txt), List.replicate 65597 'c'], 1, 61, none, []⟩ : Textarea) := by
  have h1 : (hugeTA.row + 1) % U16 = 1 := by decide
  have h2 : (hugeTA.col - 2 - 1) % U16 = 61 := by decide
  simp only [Textarea.moveCursor, Textarea.lineLen, h1, h2]
  have h3 : min 1 (([(['a', 'b'] : Txt), List.replicate 65597 'c'] : List Txt).length - 1) = 1 := by
    rw [List.length_cons, List.length_cons, List.length_nil]
    omega
  rw [h3]
  have h4 : ([(['a', 'b'] : Txt), List.replicate 65597 'c'] : List Txt).getD 1 [] =
      List.replicate 65597 'c' := rfl
  rw [h4, List.length_replicate]
  have h5 : min 61 65597 = 61 := by decide
  rw [h5]

/-- check_wrap on the huge line leaves the cursor at column 61, the
u16-wrapped value of the claimed 65597. -/
theorem hugeTA_checkWrap_cursor :
    (hugeTA.checkWrap).row = 1 ∧ (hugeTA.checkWrap).col = 61 := by
  have hget : hugeTA.lines.get? hugeTA.row = some hugeLine := rfl
  have h90 : hugeLine.length > HARD_WRAP_LIMIT := by rw [hugeLine_length]; decide
  have hrf : rfindSpace (hugeLine.take HARD_WRAP_LIMIT) = some 2 := by decide
  unfold Textarea.checkWrap
  rw [hget]
  simp only [gt_iff_lt, h90, if_true, hrf]
  rw [if_pos (by decide : (2 : Nat) < hugeTA.col), hugeTA_e1, hugeTA_e2, hugeTA_e3, hugeTA_e4]
  exact ⟨rfl, rfl⟩

/-- Counterexample to claim C3 as stated: at cursor row 65536 the u16
cast in the Jump call makes check_wrap split line 0 instead of the
cursor line, so no split position satisfies the claimed line
layout. -/
theorem claim_C3_counterexample :
    bigTA.sel = none ∧
    bigTA.lines.get? bigTA.row = some wLine ∧
    (∀ c ∈ wLine, c.toNat ≤ 127) ∧
    HARD_WRAP_LIMIT < wLine.length ∧
    spaceChar ∈ wLine.take HARD_WRAP_LIMIT ∧
    ¬ ∃ s, rfindSpace (wLine.take HARD_WRAP_LIMIT) = some s ∧
      (bigTA.checkWrap).lines =
        bigTA.lines.take bigTA.row ++ [wLine.take s, wLine.drop (s + 1)]
          ++ bigTA.lines.drop (bigTA.row + 1) := by
  refine ⟨rfl, bigTA_cursor_line, by decide, by decide, by decide, ?_⟩
  rintro ⟨s, hs, heq⟩
  have hrf : rfindSpace (wLine.take HARD_WRAP_LIMIT) = some 2 := by decide
  rw [hrf] at hs
  have hs2 : s = 2 := (Option.some.inj hs).symm
  subst hs2
  have hAlen : 0 < (bigTA.lines.take bigTA.row).length := by
    rw [List.length_take, bigTA_lines_length]
    decide
  have hAMlen : 0 <
      (bigTA.lines.take bigTA.row ++ [wLine.take 2, wLine.drop (2 + 1)]).length := by
    rw [List.length_append]
    omega
  have h1 : (bigTA.lines.take bigTA.row ++ [wLine.take 2, wLine.drop (2 + 1)]
      ++ bigTA.lines.drop (bigTA.row + 1)).get? 0 = some abcdLine := by
    rw [List.get?_eq_getElem?, List.getElem?_append_left hAMlen,
      List.getElem?_append_left hAlen, List.getElem?_take,
      if_pos (by decide : (0 : Nat) < bigTA.row), ← List.get?_eq_getElem?]
    rfl
  have h0 := bigTA_checkWrap_line0
  rw [heq, h1] at h0
  exact absurd h0 (by decide)

/-- Counterexample to claim C10 as stated: at cursor row 65536 the
u16 cast makes check_wrap modify line 0, a line above the cursor row,
so the lines above the cursor do not keep their content. -/
theorem claim_C10_counterexample :
    bigTA.sel = none ∧
    (∀ c ∈ bigTA.lines.getD bigTA.row [], c.toNat ≤ 127) ∧
    ¬ (bigTA.checkWrap).lines.take bigTA.row = bigTA.lines.take bigTA.row := by
  have hgetD : bigTA.lines.getD bigTA.row [] = wLine := by
    rw [List.getD_eq_getElem?_getD, ← List.get?_eq_getElem?, bigTA_cursor_line]
    rfl
  refine ⟨rfl, by rw [hgetD]; decide, ?_⟩
  intro heq
  have h0 : ((bigTA.checkWrap).lines.take bigTA.row).get? 0 = some (['a', 'b'] : Txt) := by
    rw [List.get?_eq_getElem?, List.getElem?_take,
      if_pos (by decide : (0 : Nat) < bigTA.row), ← List.get?_eq_getElem?,
      bigTA_checkWrap_line0]
  have h1 : (bigTA.lines.take bigTA.row).get? 0 = some abcdLine := by
    rw [List.get?_eq_getElem?, List.getElem?_take,
      if_pos (by decide : (0 : Nat) < bigTA.row), ← List.get?_eq_getElem?]
    rfl
  rw [heq, h1] at h0
  exact absurd h0 (by decide)

/-- Claim C3 (amended): for every buffer whose cursor row is below
65536 (the row passes through a u16 cast; see the counterexample) and
whose cursor line is ASCII, longer than ninety characters, and
contains at least one space among its first ninety characters, one run
of check_wrap splits that line at the rightmost such space into two
lines, and concatenating the two resulting lines with a single space
reproduces the original line exactly; with multiple consecutive spaces
the split is at the rightmost space within the limit. -/
theorem claim_C3_wrap_split (ta : Textarea) (line : Txt)
    (hline : ta.lines.get? ta.row = some line)
    (_hsel : ta.sel = none)
    (hrow : ta.row < U16)
    (_hascii : ∀ c ∈ line, c.toNat ≤ 127)
    (hlen : HARD_WRAP_LIMIT < line.length)
    (hsp : spaceChar ∈ line.take HARD_WRAP_LIMIT) :
    ∃ s, rfindSpace (line.take HARD_WRAP_LIMIT) = some s ∧
      s < HARD_WRAP_LIMIT ∧ line.get? s = some spaceChar ∧
      (∀ j, s < j → j < HARD_WRAP_LIMIT → line.get? j ≠ some spaceChar) ∧
      (ta.checkWrap).lines =
        ta.lines.take ta.row ++ [line.take s, line.drop (s + 1)] ++ ta.lines.drop (ta.row + 1) ∧
      line.take s ++ spaceChar :: line.drop (s + 1) = line := by
  obtain ⟨s, hs⟩ := rfindSpace_some_of_mem hsp
  obtain ⟨hlt, hget, hrmost⟩ := rfindSpace_spec hs
  have hslt : s < HARD_WRAP_LIMIT := by
    rw [List.length_take] at hlt; omega
  have hgetline : line.get? s = some spaceChar := by
    rw [← List.get?_take hslt]; exact hget
  refine ⟨s, hs, hslt, hgetline, ?_, ?_, take_get_drop hgetline⟩
  · intro j hj1 hj2
    rw [← List.get?_take hj2]
    exact hrmost j hj1
  · rw [checkWrap_split_eq ta line s hline hrow hlen hs]
    by_cases hc : s < ta.col
    · rw [if_pos hc, moveCursor_lines]
    · rw [if_neg hc]

/-- Claim C5: for every buffer whose cursor line has length at most
ninety characters, or whose first ninety characters contain no space,
check_wrap leaves the buffer and cursor entirely unchanged, so
re-running it on an already-conforming line is a no-op. -/
theorem claim_C5_wrap_noop (ta : Textarea) (line : Txt)
    (hline : ta.lines.get? ta.row = some line)
    (_hascii : ∀ c ∈ line, c.toNat ≤ 127)
    (hcond : line.length ≤ HARD_WRAP_LIMIT ∨ spaceChar ∉ line.take HARD_WRAP_LIMIT) :
    ta.checkWrap = ta ∧ ta.checkWrap.checkWrap = ta := by
  have h1 : ta.checkWrap = ta := by
    cases hcond with
    | inl hshort => exact checkWrap_noop_short ta line hline (by omega)
    | inr hnosp =>
      cases hfind : rfindSpace (line.take HARD_WRAP_LIMIT) with
      | none => exact checkWrap_noop_nospace ta line hline hfind
      | some s =>
        exact absurd (List.get?_mem (rfindSpace_spec hfind).2.1) (by simpa using hnosp)
  exact ⟨h1, by rw [h1, h1]⟩

/-- Claim C4 (amended): when check_wrap splits the cursor line at
space column s on row r, with r+1 and the line length inside the u16
range of the cursor casts (see the counterexample for the wrap outside
it), a cursor originally at column c beyond the split point ends at
row r+1, column c minus s minus 1; a cursor at or before the split
point ends at the start of the new second line, row r+1 column 0,
rather than keeping its original row and column. -/
theorem claim_C4_cursor_after_split (ta : Textarea) (line : Txt) (s : Nat)
    (hline : ta.lines.get? ta.row = some line)
    (_hsel : ta.sel = none)
    (hrow1 : ta.row + 1 < U16)
    (_hascii : ∀ c ∈ line, c.toNat ≤ 127)
    (hlen : HARD_WRAP_LIMIT < line.length)
    (hlinelen : line.length < U16)
    (hcol : ta.col ≤ line.length)
    (hs : rfindSpace (line.take HARD_WRAP_LIMIT) = some s) :
    (s < ta.col → (ta.checkWrap).row = ta.row + 1 ∧ (ta.checkWrap).col = ta.col - s - 1) ∧
    (ta.col ≤ s → (ta.checkWrap).row = ta.row + 1 ∧ (ta.checkWrap).col = 0) := by
  obtain ⟨hrowlt, _⟩ := List.get?_eq_some.mp hline
  have hslt : s < HARD_WRAP_LIMIT := by
    have := (rfindSpace_spec hs).1
    rw [List.length_take] at this
    omega
  have heq := checkWrap_split_eq ta line s hline (by omega) hlen hs
  have hA : (ta.lines.take ta.row).length = ta.row := by
    rw [List.length_take]; omega
  have hB : (ta.lines.drop (ta.row + 1)).length = ta.lines.length - (ta.row + 1) :=
    List.length_drop _ _
  constructor
  · intro hc
    rw [heq, if_pos hc]
    have hlen2 : (ta.lines.take ta.row ++ [line.take s, line.drop (s + 1)]
        ++ ta.lines.drop (ta.row + 1)).length = ta.lines.length + 1 := by
      simp only [List.length_append, hA, hB, List.length_cons, List.length_nil]
      omega
    have hy : ((ta.lines.take ta.row ++ [line.take s, line.drop (s + 1)]
        ++ ta.lines.drop (ta.row + 1))).getD (ta.row + 1) [] = line.drop (s + 1) := by
      rw [List.getD_eq_getElem?_getD, List.append_assoc,
        List.getElem?_append_right (by rw [hA]; omega)]
      simp [hA]
    have h1 : (ta.row + 1) % U16 = ta.row + 1 := Nat.mod_eq_of_lt hrow1
    have h2 : (ta.col - s - 1) % U16 = ta.col - s - 1 :=
      Nat.mod_eq_of_lt (by unfold U16 at *; omega)
    simp only [Textarea.moveCursor, Textarea.lineLen, h1, h2, hlen2]
    have h3 : min (ta.row + 1) (ta.lines.length + 1 - 1) = ta.row + 1 := by omega
    rw [h3]
    refine ⟨rfl, ?_⟩
    rw [hy]
    have h4 : (line.drop (s + 1)).length = line.length - (s + 1) := List.length_drop _ _
    rw [h4]
    omega
  · intro hc
    rw [heq, if_neg (by omega)]
    exact ⟨rfl, rfl⟩

/-- Claim C10 (amended): every invocation of check_wrap at a cursor
row below 65536 (the row passes through a u16 cast; see the
counterexample) keeps the content of every line other than the cursor
line: the lines above the cursor row are unchanged, and either the
whole line sequence is unchanged, or one split occurred and the lines
below the cursor row are the same sequence shifted down by one row. -/
theorem claim_C10_wrap_frame (ta : Textarea)
    (_hsel : ta.sel = none)
    (hrow : ta.row < U16)
    (_hascii : ∀ c ∈ ta.lines.getD ta.row [], c.toNat ≤ 127) :
    (ta.checkWrap).lines.take ta.row = ta.lines.take ta.row ∧
    ((ta.checkWrap).lines = ta.lines ∨
      ((ta.checkWrap).lines.length = ta.lines.length + 1 ∧
        (ta.checkWrap).lines.drop (ta.row + 2) = ta.lines.drop (ta.row + 1))) := by
  cases hline : ta.lines.get? ta.row with
  | none =>
    rw [checkWrap_noop_norow ta hline]
    exact ⟨rfl, Or.inl rfl⟩
  | some line =>
    by_cases hlen : HARD_WRAP_LIMIT < line.length
    · cases hfind : rfindSpace (line.take HARD_WRAP_LIMIT) with
      | none =>
        rw [checkWrap_noop_nospace ta line hline hfind]
        exact ⟨rfl, Or.inl rfl⟩
      | some s =>
        obtain ⟨hrowlt, _⟩ := List.get?_eq_some.mp hline
        have hA : (ta.lines.take ta.row).length = ta.row := by
          rw [List.length_take]; omega
        have hlines : (ta.checkWrap).lines =
            ta.lines.take ta.row ++ [line.take s, line.drop (s + 1)]
              ++ ta.lines.drop (ta.row + 1) := by
          rw [checkWrap_split_eq ta line s hline hrow hlen hfind]
          by_cases hc : s < ta.col
          · rw [if_pos hc, moveCursor_lines]
          · rw [if_neg hc]
        rw [hlines]
        refine ⟨?_, Or.inr ⟨?_, ?_⟩⟩
        · rw [List.append_assoc]
          exact List.take_left' hA
        · simp only [List.length_append, hA, List.length_cons, List.length_nil,
            List.length_drop]
          omega
        · have hAB : (ta.lines.take ta.row ++ [line.take s, line.drop (s + 1)]).length
              = ta.row + 2 := by
            simp only [List.length_append, hA, List.length_cons, List.length_nil]
          exact List.drop_left' hAB
    · rw [checkWrap_noop_short ta line hline (by omega)]
      exact ⟨rfl, Or.inl rfl⟩

/-- Witness for claim C3 at a concrete buffer. -/
theorem claim_C3_witness :
    wTA.lines.get? wTA.row = some wLine ∧
    wTA.sel = none ∧ wTA.row < U16 ∧
    (∀ c ∈ wLine, c.toNat ≤ 127) ∧
    HARD_WRAP_LIMIT < wLine.length ∧
    spaceChar ∈ wLine.take HARD_WRAP_LIMIT ∧
    (∃ s, rfindSpace (wLine.take HARD_WRAP_LIMIT) = some s ∧
      s < HARD_WRAP_LIMIT ∧ wLine.get? s = some spaceChar ∧
      (∀ j, s < j → j < HARD_WRAP_LIMIT → wLine.get? j ≠ some spaceChar) ∧
      (wTA.checkWrap).lines =
        wTA.lines.take wTA.row ++ [wLine.take s, wLine.drop (s + 1)]
          ++ wTA.lines.drop (wTA.row + 1) ∧
      wLine.take s ++ spaceChar :: wLine.drop (s + 1) = wLine) :=
  ⟨rfl, rfl, by decide, by decide, by decide, by decide,
    claim_C3_wrap_split wTA wLine rfl rfl (by decide) (by decide) (by decide) (by decide)⟩

/-- Witness for claim C4 at a concrete buffer with the cursor beyond
the split point. -/
theorem claim_C4_witness :
    rfindSpace (wLine.take HARD_WRAP_LIMIT) = some 2 ∧
    (2 < wTA.col → (wTA.checkWrap).row = wTA.row + 1 ∧ (wTA.checkWrap).col = wTA.col - 2 - 1) ∧
    (wTA.col ≤ 2 → (wTA.checkWrap).row = wTA.row + 1 ∧ (wTA.checkWrap).col = 0) :=
  ⟨by decide,
    (claim_C4_cursor_after_split wTA wLine 2 rfl rfl (by decide) (by decide)
      (by decide) (by decide) (by decide) (by decide)).1,
    (claim_C4_cursor_after_split wTA wLine 2 rfl rfl (by decide) (by decide)
      (by decide) (by decide) (by decide) (by decide)).2⟩

/-- Counterexample to claim C4 as stated: with the cursor at column
zero, at or before the split point, the claim predicts an unchanged
cursor, but check_wrap leaves the cursor at the start of the new
second line; and beyond the u16 range the relocation formula itself
fails: on a 65600 character line with the space at column two and the
cursor at the end, the cursor lands at column 61, the u16-wrapped
value of the claimed 65597. -/
theorem claim_C4_counterexample :
    (rfindSpace (wLine.take HARD_WRAP_LIMIT) = some 2 ∧
     wTA0.col ≤ 2 ∧ HARD_WRAP_LIMIT < wLine.length ∧
     wTA0.lines.get? wTA0.row = some wLine ∧
     ¬((wTA0.checkWrap).row = wTA0.row ∧ (wTA0.checkWrap).col = wTA0.col)) ∧
    (rfindSpace (hugeLine.take HARD_WRAP_LIMIT) = some 2 ∧
     2 < hugeTA.col ∧ HARD_WRAP_LIMIT < hugeLine.length ∧
     hugeTA.lines.get? hugeTA.row = some hugeLine ∧
     (hugeTA.checkWrap).row = hugeTA.row + 1 ∧
     ¬ (hugeTA.checkWrap).col = hugeTA.col - 2 - 1) := by
  constructor
  · refine ⟨by decide, by decide, by decide, rfl, ?_⟩
    intro h
    have : (wTA0.checkWrap).row = 1 := by decide
    rw [h.1] at this
    exact absurd this (by decide)
  · refine ⟨by decide, by decide, by rw [hugeLine_length]; decide, rfl, ?_, ?_⟩
    · exact hugeTA_checkWrap_cursor.1
    · rw [hugeTA_checkWrap_cursor.2]
      decide

/-- Witness for claim C5 at a buffer whose line has exactly ninety
characters. -/
theorem claim_C5_witness :
    wTA90.lines.get? wTA90.row = some wLine90 ∧
    wLine90.length ≤ HARD_WRAP_LIMIT ∧
    wTA90.checkWrap = wTA90 ∧ wTA90.checkWrap.checkWrap = wTA90 := by
  refine ⟨rfl, by decide, ?_⟩
  exact claim_C5_wrap_noop wTA90 wLine90 rfl (by decide) (Or.inl (by decide))

/-- Witness for claim C10 at a three line buffer whose middle line is
split. -/
theorem claim_C10_witness :
    wTA3.sel = none ∧ wTA3.row < U16 ∧
    (wTA3.checkWrap).lines.take wTA3.row = wTA3.lines.take wTA3.row ∧
    ((wTA3.checkWrap).lines = wTA3.lines ∨
      ((wTA3.checkWrap).lines.length = wTA3.lines.length + 1 ∧
        (wTA3.checkWrap).lines.drop (wTA3.row + 2) = wTA3.lines.drop (wTA3.row + 1))) := by
  refine ⟨rfl, by decide, ?_⟩
  exact (claim_C10_wrap_frame wTA3 rfl (by decide) (by decide)).1.symm ▸
    (claim_C10_wrap_frame wTA3 rfl (by decide) (by decide))

/-- Claim C9: Enter in PopupInput with a pending rename and a blank
typed name performs no rename: the storage is untouched, the drafts
list is unchanged, the mode stays as it was, and the pending action is
cleared. -/
theorem claim_C9_rename_empty_noop (a : App) (now : Nat) (oldName : Txt) (k : KeyEvent)
    (hk : k.code = KeyCode.Enter)
    (hmode : a.mode = Mode.PopupInput)
    (haction : a.popup_action = PopupAction.RenameDraft oldName)
    (hempty : trim a.popup_textarea.lines.flatten = []) :
    (a.handle_key_event k now).popup_action = PopupAction.None ∧
    (a.handle_key_event k now).storage = a.storage ∧
    (a.handle_key_event k now).drafts = a.drafts ∧
    (a.handle_key_event k now).mode = a.mode := by
  unfold App.handle_key_event
  rw [hmode]
  unfold handlePopup
  rw [hk]
  simp only [haction, hempty, if_pos]
  simp [hmode]

/-- App::end_flow with an all-whitespace buffer: no history entry,
straight to Menu. -/
theorem end_flow_eq_empty (a : App) (now : Nat)
    (h : trim (joinNL a.textarea.lines) = []) :
    a.end_flow true now = { a with
      mode := Mode.Menu
      flow_start := none
      message := some msgFlowEnded
      message_time := some now } := by
  unfold App.end_flow App.save_flow_entry App.set_message
  simp only [h, if_pos]

/-- App::end_flow with a non-blank buffer: one history entry saved,
then Menu. -/
theorem end_flow_eq_nonempty (a : App) (now : Nat)
    (h : ¬ trim (joinNL a.textarea.lines) = []) :
    a.end_flow true now = { a with
      mode := Mode.Menu
      flow_start := none
      storage := a.storage.save_flow_entry
        { timestamp := now, duration_minutes := a.flow_duration / 60 % 4294967296,
          text := joinNL a.textarea.lines }
      message := some msgFlowEnded
      message_time := some now } := by
  unfold App.end_flow App.save_flow_entry App.set_message
  simp only [h, if_neg, if_false]
  rfl

/-- What App::end_flow with save does: Menu mode, cleared start
instant, untouched buffer and remaining time, and exactly one new
history entry (newest-first re-sort included) precisely when the
trimmed buffer is non-empty. -/
theorem end_flow_spec (a : App) (now : Nat) :
    (a.end_flow true now).mode = Mode.Menu ∧
    (a.end_flow true now).flow_start = none ∧
    (a.end_flow true now).textarea = a.textarea ∧
    (a.end_flow true now).flow_remaining = a.flow_remaining ∧
    (¬ trim (joinNL a.textarea.lines) = [] →
      (a.end_flow true now).storage.flowHistory.Perm
        ({ timestamp := now, duration_minutes := a.flow_duration / 60 % 4294967296,
           text := joinNL a.textarea.lines } :: a.storage.flowHistory)) ∧
    (trim (joinNL a.textarea.lines) = [] →
      (a.end_flow true now).storage.flowHistory = a.storage.flowHistory) := by
  by_cases h : trim (joinNL a.textarea.lines) = []
  · rw [end_flow_eq_empty a now h]
    exact ⟨rfl, rfl, rfl, rfl, fun hc => absurd h hc, fun _ => rfl⟩
  · rw [end_flow_eq_nonempty a now h]
    refine ⟨rfl, rfl, rfl, rfl, fun _ => ?_, fun hc => absurd hc h⟩
    show (List.insertionSort _ (a.storage.flowHistory ++ [_])).Perm _
    exact (List.perm_insertionSort _ _).trans (List.perm_append_singleton _ _)

/-- end_flow always stamps the message overlay with the given
instant. -/
theorem end_flow_message_time (now : Nat) : ∀ b : App,
    (b.end_flow true now).message_time = some now := by
  intro b
  unfold App.end_flow App.save_flow_entry App.set_message
  by_cases h : trim (joinNL b.textarea.lines) = []
  · simp only [h, if_pos]
  · simp only [h, if_neg, if_false]

/-- App::tick at an expired flow session reduces to end_flow with the
remaining time zeroed. -/
theorem tick_flow_expired (a : App) (now st : Nat) (hmode : a.mode = Mode.Flow)
    (hst : a.flow_start = some st) (hel : a.flow_duration ≤ now - st) :
    a.tick now = ({ a with flow_remaining := 0 } : App).end_flow true now := by
  unfold App.tick
  have h1 : ¬ (a.mode = Mode.Splash) := by rw [hmode]; decide
  rw [if_neg h1]
  simp only [hmode, if_pos, hst, hel, if_true]
  rw [end_flow_message_time now]
  simp [Nat.sub_self]

/-- Claim C2 (amended): every way a flow session ends, Escape in Flow
mode or a tick with the elapsed time at least the configured duration,
leaves Mode = Menu with the start instant cleared, saves exactly one
new flow history entry holding the buffer text with duration_minutes
equal to duration divided by sixty reduced modulo 2^32 (the u32 cast
of the source) if and only if the trimmed buffer is non-empty, and
leaves the primary buffer unchanged (it is cleared only when the next
flow session starts). -/
theorem claim_C2_flow_session_end (a : App) (now : Nat) (k : KeyEvent)
    (hk : k.code = KeyCode.Esc) (hmode : a.mode = Mode.Flow) :
    ((a.handle_key_event k now).mode = Mode.Menu ∧
     (a.handle_key_event k now).flow_start = none ∧
     (a.handle_key_event k now).textarea = a.textarea ∧
     (¬ trim (joinNL a.textarea.lines) = [] →
       (a.handle_key_event k now).storage.flowHistory.Perm
         ({ timestamp := now, duration_minutes := a.flow_duration / 60 % 4294967296,
            text := joinNL a.textarea.lines } :: a.storage.flowHistory)) ∧
     (trim (joinNL a.textarea.lines) = [] →
       (a.handle_key_event k now).storage.flowHistory = a.storage.flowHistory)) ∧
    (∀ st, a.flow_start = some st → a.flow_duration ≤ now - st →
      (a.tick now).mode = Mode.Menu ∧
      (a.tick now).flow_start = none ∧
      (a.tick now).flow_remaining = 0 ∧
      (a.tick now).textarea = a.textarea ∧
      (¬ trim (joinNL a.textarea.lines) = [] →
        (a.tick now).storage.flowHistory.Perm
          ({ timestamp := now, duration_minutes := a.flow_duration / 60 % 4294967296,
             text := joinNL a.textarea.lines } :: a.storage.flowHistory)) ∧
      (trim (joinNL a.textarea.lines) = [] →
        (a.tick now).storage.flowHistory = a.storage.flowHistory)) := by
  constructor
  · have hkey : a.handle_key_event k now = a.end_flow true now := by
      unfold App.handle_key_event
      rw [hmode]
      unfold handleFlow
      rw [hk]
    rw [hkey]
    obtain ⟨h1, h2, h3, _, h5, h6⟩ := end_flow_spec a now
    exact ⟨h1, h2, h3, h5, h6⟩
  · intro st hst hel
    rw [tick_flow_expired a now st hmode hst hel]
    obtain ⟨h1, h2, h3, h4, h5, h6⟩ := end_flow_spec ({ a with flow_remaining := 0 } : App) now
    exact ⟨h1, h2, h4, h3, h5, h6⟩

/-- Witness for claim C2 at a concrete Flow state with buffer text
hi, ended at the expiry instant. -/
theorem claim_C2_witness :
    exFlowApp.mode = Mode.Flow ∧ exFlowApp.flow_start = some 0 ∧
    exFlowApp.flow_duration ≤ 600 - 0 ∧
    (exFlowApp.handle_key_event keyEsc 600).mode = Mode.Menu ∧
    (exFlowApp.handle_key_event keyEsc 600).flow_start = none ∧
    (exFlowApp.handle_key_event keyEsc 600).textarea = exFlowApp.textarea ∧
    (exFlowApp.tick 600).mode = Mode.Menu ∧
    (exFlowApp.tick 600).flow_remaining = 0 ∧
    (¬ trim (joinNL exFlowApp.textarea.lines) = [] →
      (exFlowApp.tick 600).storage.flowHistory.Perm
        ({ timestamp := 600,
           duration_minutes := exFlowApp.flow_duration / 60 % 4294967296,
           text := joinNL exFlowApp.textarea.lines } :: exFlowApp.storage.flowHistory)) := by
  have h := claim_C2_flow_session_end exFlowApp 600 keyEsc rfl rfl
  have ht := h.2 0 rfl (by decide)
  exact ⟨rfl, rfl, by decide, h.1.1, h.1.2.1, h.1.2.2.1, ht.1, ht.2.2.1, ht.2.2.2.2.1⟩

/-- Counterexample to claim C2 as stated: ending the session does not
clear the primary buffer (it still holds its text after the transition
to Menu), and with a configured duration of 2^32 minutes the stored
duration_minutes is the u32-wrapped 0, not duration divided by 60. -/
theorem claim_C2_counterexample :
    ((exFlowApp.handle_key_event keyEsc 600).mode = Mode.Menu ∧
     (exFlowApp.handle_key_event keyEsc 600).textarea.lines = [['h', 'i']] ∧
     ¬ (exFlowApp.handle_key_event keyEsc 600).textarea.lines = [[]]) ∧
    (exFlowAppHuge.mode = Mode.Flow ∧
     (exFlowAppHuge.handle_key_event keyEsc 0).storage.flowHistory.map
       FlowEntry.duration_minutes = [0] ∧
     ¬ (0 = exFlowAppHuge.flow_duration / 60)) := by
  exact ⟨⟨by decide, by decide, by decide⟩, ⟨by decide, by decide, by decide⟩⟩

/-- Claim C8 (amended): every fresh entry into Writing mode from Menu
(new buffer through n), from Drafts (Enter on a selected draft), or
from FlowHistory (Enter on a selected entry) leaves EditorMode exactly
as it was; no entry path resets it to Normal. -/
theorem claim_C8_entry_editor_mode (a b c : App) (now : Nat) (k : KeyEvent)
    (hk : k.code = KeyCode.Enter) :
    (a.mode = Mode.Menu →
      (a.handle_key_event (keyChar 'n') now).editor_mode = a.editor_mode) ∧
    (b.mode = Mode.Drafts →
      (b.handle_key_event k now).editor_mode = b.editor_mode) ∧
    (c.mode = Mode.FlowHistory →
      (c.handle_key_event k now).editor_mode = c.editor_mode) := by
  refine ⟨?_, ?_, ?_⟩
  · intro hmode
    unfold App.handle_key_event
    rw [hmode]
    unfold handleMenu
    simp [keyChar, App.set_message, App.load_drafts, App.load_history]
  · intro hmode
    unfold App.handle_key_event
    rw [hmode]
    unfold handleDrafts
    rw [hk]
    rcases hds : b.drafts_state with _ | idx
    · simp only [hds]
    · simp only [hds]
      by_cases hlt : idx < b.drafts.length
      · rw [if_pos hlt]
        rcases hpa : b.popup_action with _ | o | cc | _ <;> simp only [hpa]
        · rcases hlook : b.storage.lookupDraft (b.drafts.getD idx []) with _ | content <;>
            simp [hlook, App.set_message]
        · rcases hlook : b.storage.lookupDraft (b.drafts.getD idx []) with _ | content <;>
            simp [hlook, App.set_message]
        · rcases hlook : b.storage.lookupDraft (b.drafts.getD idx []) with _ | content <;>
            simp [hlook, App.set_message]
        · rcases hlook : b.storage.lookupDraft (b.drafts.getD idx []) with _ | content <;>
            simp [hlook, App.set_message]
      · rw [if_neg hlt]
  · intro hmode
    unfold App.handle_key_event
    rw [hmode]
    unfold handleFlowHistory
    rw [hk]
    rcases hhs : c.history_state with _ | idx
    · simp only [hhs]
    · simp only [hhs]
      by_cases hlt : idx < c.history.length
      · rw [if_pos hlt]
        simp [App.set_message]
      · rw [if_neg hlt]

/-- Witness for claim C8 at concrete states: entry from Menu keeps
the Insert editor mode of a non-modal configuration, and Enter in the
concrete Drafts state keeps Normal. -/
theorem claim_C8_witness :
    exAppNoVim.mode = Mode.Menu ∧
    (exAppNoVim.handle_key_event (keyChar 'n') 0).editor_mode = exAppNoVim.editor_mode ∧
    exDraftsApp.mode = Mode.Drafts ∧
    (exDraftsApp.handle_key_event keyEnter 0).editor_mode = exDraftsApp.editor_mode := by
  have h := claim_C8_entry_editor_mode exAppNoVim exDraftsApp exDraftsApp 0 keyEnter rfl
  exact ⟨by decide, h.1 (by decide), rfl, h.2.1 rfl⟩

/-- Counterexample to claim C8 as stated: a reachable run (new
buffer, Visual, a to append, Escape back to Menu, n for a fresh
buffer) enters Writing from Menu with modal editing enabled, yet
EditorMode is still Visual, not reset to Normal. -/
theorem claim_C8_counterexample :
    exRunC8.mode = Mode.Writing ∧
    exRunC8.settings.vim_mode = true ∧
    ¬ exRunC8.editor_mode = EditorMode.Normal := by
  exact ⟨by decide, by decide, by decide⟩

/-- Claim C1 (amended): in Writing mode with modal editing enabled
and preview inactive, the direct exits from Visual mode, Escape, the
y yank, and n with an empty captured selection, all return to Normal
with the selection anchor cancelled, and entering Visual through v
places an anchor at the cursor; however the a append workflow leaves
EditorMode = Visual while switching away from Writing without
restoring it, so Visual mode does not always imply an active anchor
(see the counterexample). -/
theorem claim_C1_visual_selection (a : App) (now : Nat)
    (hmode : a.mode = Mode.Writing)
    (hvim : a.settings.vim_mode = true)
    (hprev : a.preview_mode_active = false)
    (hvis : a.editor_mode = EditorMode.Visual) :
    ((a.handle_key_event keyEsc now).editor_mode = EditorMode.Normal ∧
     (a.handle_key_event keyEsc now).textarea.sel = none) ∧
    ((a.handle_key_event (keyChar 'y') now).editor_mode = EditorMode.Normal ∧
     (a.handle_key_event (keyChar 'y') now).textarea.sel = none) ∧
    (a.textarea.copy.yank = [] →
      (a.handle_key_event (keyChar 'n') now).editor_mode = EditorMode.Normal ∧
      (a.handle_key_event (keyChar 'n') now).textarea.sel = none) ∧
    (∀ b : App, b.mode = Mode.Writing → b.settings.vim_mode = true →
      b.preview_mode_active = false → b.editor_mode = EditorMode.Normal →
      (b.handle_key_event (keyChar 'v') now).editor_mode = EditorMode.Visual ∧
      (b.handle_key_event (keyChar 'v') now).textarea.sel
        = some (b.textarea.row, b.textarea.col)) := by
  refine ⟨?_, ?_, ?_, ?_⟩
  · unfold App.handle_key_event
    rw [hmode]
    unfold handleWriting
    rw [if_neg (by decide), if_neg (by decide), if_neg (by decide),
      if_neg (by decide), if_neg (by decide), if_neg (by simp [hprev]),
      if_neg (by simp [hvim]), hvis]
    exact ⟨rfl, rfl⟩
  · unfold App.handle_key_event
    rw [hmode]
    unfold handleWriting
    rw [if_neg (by decide), if_neg (by decide), if_neg (by decide),
      if_neg (by decide), if_neg (by decide), if_neg (by simp [hprev]),
      if_neg (by simp [hvim]), hvis]
    simp [keyChar, Textarea.cancelSelection, App.set_message]
  · intro hempty
    unfold App.handle_key_event
    rw [hmode]
    unfold handleWriting
    rw [if_neg (by decide), if_neg (by decide), if_neg (by decide),
      if_neg (by decide), if_neg (by decide), if_neg (by simp [hprev]),
      if_neg (by simp [hvim]), hvis]
    simp [keyChar, Textarea.yankText, Textarea.cancelSelection, App.set_message, hempty]
  · intro b hbmode hbvim hbprev hbnormal
    unfold App.handle_key_event
    rw [hbmode]
    unfold handleWriting
    rw [if_neg (by decide), if_neg (by decide), if_neg (by decide),
      if_neg (by decide), if_neg (by decide), if_neg (by simp [hbprev]),
      if_neg (by simp [hbvim]), hbnormal]
    simp [keyChar, Textarea.startSelection]

/-- Witness for claim C1 at the reachable Visual state. -/
theorem claim_C1_witness :
    exVisualApp.mode = Mode.Writing ∧
    exVisualApp.settings.vim_mode = true ∧
    exVisualApp.editor_mode = EditorMode.Visual ∧
    exVisualApp.textarea.sel = some (0, 0) ∧
    (exVisualApp.handle_key_event keyEsc 0).editor_mode = EditorMode.Normal ∧
    (exVisualApp.handle_key_event keyEsc 0).textarea.sel = none ∧
    (exVisualApp.handle_key_event (keyChar 'y') 0).textarea.sel = none ∧
    (exVisualApp.handle_key_event (keyChar 'n') 0).textarea.sel = none ∧
    (exNormalApp.handle_key_event (keyChar 'v') 0).textarea.sel
      = some (exNormalApp.textarea.row, exNormalApp.textarea.col) := by
  have h := claim_C1_visual_selection exVisualApp 0 (by decide) (by decide)
    (by decide) (by decide)
  exact ⟨by decide, by decide, by decide, by decide, h.1.1, h.1.2, h.2.1.2,
    (h.2.2.1 (by decide)).2,
    (h.2.2.2 exNormalApp (by decide) (by decide) (by decide) (by decide)).2⟩

/-- Counterexample to claim C1 as stated: a reachable state (new
buffer, enter Visual, press a to append, Enter on the selected draft)
is in Writing mode with modal editing on and EditorMode = Visual, yet
its buffer has no selection anchor; the a append path neither cancels
the anchor nor leaves Visual. -/
theorem claim_C1_counterexample :
    exRunC1.mode = Mode.Writing ∧
    exRunC1.settings.vim_mode = true ∧
    exRunC1.editor_mode = EditorMode.Visual ∧
    exRunC1.textarea.sel = none := by
  exact ⟨by decide, by decide, by decide, by decide⟩

/-- Claim C6 (amended): while preview is inactive, Escape in Writing
mode (modal editing off, or Normal sub-mode with it on) moves to Menu
and clears the current draft identity; Enter in Drafts mode with a
valid selected index, no pending append action and a loadable draft
moves to Writing and sets the current draft identity to the selected
name. -/
theorem claim_C6_writing_menu_transitions (a b : App) (now : Nat) (k1 k2 : KeyEvent)
    (hk1 : k1.code = KeyCode.Esc) (hk2 : k2.code = KeyCode.Enter) :
    ((a.mode = Mode.Writing → a.preview_mode_active = false →
      (a.settings.vim_mode = false ∨
        (a.settings.vim_mode = true ∧ a.editor_mode = EditorMode.Normal)) →
      (a.handle_key_event k1 now).mode = Mode.Menu ∧
      (a.handle_key_event k1 now).current_draft_name = none)) ∧
    (∀ idx name content, b.mode = Mode.Drafts →
      ¬ b.popup_action = PopupAction.AppendToDraftFromSelection →
      b.drafts_state = some idx →
      b.drafts.get? idx = some name →
      b.storage.lookupDraft name = some content →
      (b.handle_key_event k2 now).mode = Mode.Writing ∧
      (b.handle_key_event k2 now).current_draft_name = some name) := by
  constructor
  · intro hmode hprev hdisj
    unfold App.handle_key_event
    rw [hmode]
    unfold handleWriting
    rw [if_neg (by simp [hk1]), if_neg (by simp [hk1]), if_neg (by simp [hk1]),
      if_neg (by simp [hk1]), if_neg (by simp [hk1]), if_neg (by simp [hprev])]
    cases hdisj with
    | inl hv =>
      rw [if_pos hv]
      simp only [hk1]
      exact ⟨trivial, trivial⟩
    | inr hv =>
      rw [if_neg (by simp [hv.1])]
      rw [hv.2]
      simp only [hk1]
      exact ⟨trivial, trivial⟩
  · intro idx name content hmode hne hsel hget hlook
    have hlt : idx < b.drafts.length := (List.get?_eq_some.mp hget).1
    have hgetD : b.drafts.getD idx [] = name := by
      rw [List.getD_eq_getElem?_getD, ← List.get?_eq_getElem?, hget]
      rfl
    unfold App.handle_key_event
    rw [hmode]
    unfold handleDrafts
    rw [hk2, hsel]
    simp only [hlt, if_pos, hgetD]
    cases hpa : b.popup_action with
    | AppendToDraftFromSelection => exact absurd hpa hne
    | None => simp only [hlook, App.set_message]; exact ⟨trivial, trivial⟩
    | RenameDraft o => simp only [hlook, App.set_message]; exact ⟨trivial, trivial⟩
    | NewDraftFromSelection c => simp only [hlook, App.set_message]; exact ⟨trivial, trivial⟩

/-- Witness for claim C6: Escape from a reachable Writing state with
modal editing off and preview inactive, and Enter on the selected
draft of a concrete Drafts state. -/
theorem claim_C6_witness :
    (let a := runKeys exAppNoVim [keyChar 'n'] 0
     a.mode = Mode.Writing ∧ a.preview_mode_active = false ∧
     a.settings.vim_mode = false ∧
     (a.handle_key_event keyEsc 0).mode = Mode.Menu ∧
     (a.handle_key_event keyEsc 0).current_draft_name = none) ∧
    (exDraftsApp.mode = Mode.Drafts ∧
     exDraftsApp.drafts_state = some 0 ∧
     exDraftsApp.drafts.get? 0 = some ("d.txt".data) ∧
     (exDraftsApp.handle_key_event keyEnter 0).mode = Mode.Writing ∧
     (exDraftsApp.handle_key_event keyEnter 0).current_draft_name = some ("d.txt".data)) := by
  constructor
  · refine ⟨by decide, by decide, by decide, ?_⟩
    exact (claim_C6_writing_menu_transitions (runKeys exAppNoVim [keyChar 'n'] 0)
      exDraftsApp 0 keyEsc keyEnter rfl rfl).1 (by decide) (by decide)
      (Or.inl (by decide))
  · refine ⟨rfl, rfl, by decide, ?_⟩
    exact (claim_C6_writing_menu_transitions exAppNoVim exDraftsApp 0 keyEsc keyEnter
      rfl rfl).2 0 ("d.txt".data) ("hi".data) rfl (by decide) rfl (by decide) (by decide)

/-- Counterexample to claim C6 as stated: in a reachable Writing state
with modal editing off but preview active (toggled by Ctrl+P), Escape
does not move to Menu; the mode stays Writing. -/
theorem claim_C6_counterexample :
    exPreviewApp.mode = Mode.Writing ∧
    exPreviewApp.settings.vim_mode = false ∧
    exPreviewApp.preview_mode_active = true ∧
    (exPreviewApp.handle_key_event keyEsc 0).mode = Mode.Writing ∧
    ¬ (exPreviewApp.handle_key_event keyEsc 0).mode = Mode.Menu := by
  exact ⟨by decide, by decide, by decide, by decide, by decide⟩

/-- Searching an upserted draft list for the upserted name finds the
new content. -/
theorem find?_upsert (n c : Txt) : ∀ l : List (Txt × Txt),
    (Storage.upsertDraft n c l).find? (fun p => p.1 == n) = some (n, c) := by
  intro l
  induction l with
  | nil => simp [Storage.upsertDraft, List.find?]
  | cons p ps ih =>
    by_cases hp : p.1 = n
    · simp [Storage.upsertDraft, hp, List.find?]
    · have hb : (p.1 == n) = false := by simp [hp]
      simp [Storage.upsertDraft, hb, List.find?, ih]

/-- Loading a draft right after saving it yields the saved content. -/
theorem lookupDraft_save_draft (st : Storage) (n c : Txt) :
    (st.save_draft n c).lookupDraft n = some c := by
  unfold Storage.save_draft Storage.lookupDraft
  simp only [find?_upsert]

/-- Claim C7: Enter in PopupInput with a pending
NewDraftFromSelection(content) and a typed name whose trimmed form is
non-empty persists content under the trimmed name, with a dot and the
configured default extension appended exactly when the name contains
no dot; afterwards Mode is Writing, EditorMode is Normal, the
selection is cancelled, and the pending action is cleared. -/
theorem claim_C7_new_draft_commit (a : App) (now : Nat) (content : Txt) (k : KeyEvent)
    (hk : k.code = KeyCode.Enter)
    (hmode : a.mode = Mode.PopupInput)
    (haction : a.popup_action = PopupAction.NewDraftFromSelection content)
    (hname : ¬ trim a.popup_textarea.lines.flatten = []) :
    ((a.handle_key_event k now).storage.lookupDraft
      (if (trim a.popup_textarea.lines.flatten).contains dotChar then
        trim a.popup_textarea.lines.flatten
      else
        trim a.popup_textarea.lines.flatten ++ dotChar :: a.settings.default_extension)
      = some content) ∧
    (a.handle_key_event k now).mode = Mode.Writing ∧
    (a.handle_key_event k now).editor_mode = EditorMode.Normal ∧
    (a.handle_key_event k now).textarea.sel = none ∧
    (a.handle_key_event k now).popup_action = PopupAction.None := by
  unfold App.handle_key_event
  rw [hmode]
  unfold handlePopup
  rw [hk]
  simp only [haction, hname, if_neg, if_false]
  refine ⟨?_, by trivial, by trivial, by trivial, by trivial⟩
  by_cases hdot : (trim a.popup_textarea.lines.flatten).contains dotChar
  · simp only [hdot, if_true, App.set_message]
    exact lookupDraft_save_draft _ _ _
  · simp only [hdot, if_false, App.set_message]
    exact lookupDraft_save_draft _ _ _

/-- Witness for claim C7 at a concrete popup state: the name mydraft
has no dot, so the txt extension is appended. -/
theorem claim_C7_witness :
    exPopupNew.mode = Mode.PopupInput ∧
    exPopupNew.popup_action = PopupAction.NewDraftFromSelection ("sel text".data) ∧
    ¬ trim exPopupNew.popup_textarea.lines.flatten = [] ∧
    ((exPopupNew.handle_key_event keyEnter 5).storage.lookupDraft
      (if (trim exPopupNew.popup_textarea.lines.flatten).contains dotChar then
        trim exPopupNew.popup_textarea.lines.flatten
      else
        trim exPopupNew.popup_textarea.lines.flatten ++ dotChar
          :: exPopupNew.settings.default_extension)
      = some ("sel text".data)) ∧
    (exPopupNew.handle_key_event keyEnter 5).mode = Mode.Writing ∧
    (exPopupNew.handle_key_event keyEnter 5).editor_mode = EditorMode.Normal ∧
    (exPopupNew.handle_key_event keyEnter 5).textarea.sel = none ∧
    (exPopupNew.handle_key_event keyEnter 5).popup_action = PopupAction.None := by
  refine ⟨rfl, rfl, by decide, ?_⟩
  exact claim_C7_new_draft_commit exPopupNew 5 ("sel text".data) keyEnter rfl rfl rfl
    (by decide)

/-- Witness for claim C9 at a concrete popup state. -/
theorem claim_C9_witness :
    exPopupRename.mode = Mode.PopupInput ∧
    exPopupRename.popup_action = PopupAction.RenameDraft ("d.txt".data) ∧
    trim exPopupRename.popup_textarea.lines.flatten = [] ∧
    (exPopupRename.handle_key_event keyEnter 5).popup_action = PopupAction.None ∧
    (exPopupRename.handle_key_event keyEnter 5).storage = exPopupRename.storage ∧
    (exPopupRename.handle_key_event keyEnter 5).drafts = exPopupRename.drafts ∧
    (exPopupRename.handle_key_event keyEnter 5).mode = exPopupRename.mode := by
  refine ⟨rfl, rfl, by decide, ?_⟩
  exact claim_C9_rename_empty_noop exPopupRename 5 ("d.txt".data) keyEnter rfl rfl rfl
    (by decide)

end WriteApp

